import Mathlib

/-
Verification development for the Hasten IDL toolchain and HB1 RPC runtime.

The definitions below are shallow embeddings of the C++ sources:

  * src/codegen/emitter.cpp           — stable_hash (FNV-1a 64 identifiers)
  * src/runtime/frame.cpp             — crc32, encode_header, decode_header
  * src/runtime/serialization/hb1.cpp — varint/zigzag/fixed/length-delimited
                                        codec, encode_message, decode_message
  * src/runtime/context.cpp           — parse_rpc_request, build_response_payload,
                                        handle_server_data
  * src/runtime/rpc.cpp               — handler registry lookup
  * src/runtime/uds.cpp               — SimpleDispatcher
  * src/frontend/frontend.cpp         — detail::parse_imports
  * src/frontend/semantic/utility.hpp — check_id_collection

Machine integers are modeled as Nat (respectively Int for int64) with
explicit reductions modulo 2^w exactly where the C++ computation wraps.
Bytes are Nat values; byte buffers are List Nat.  Fallible operations
return Except Err.  Reference definitions that come from the
specification text rather than from the source are marked as such.
-/

set_option maxHeartbeats 1000000
set_option maxRecDepth 8000

-- ===================================================================
-- Error model (src/runtime/include/hasten/runtime/error.hpp)
-- ===================================================================

inductive ErrorCode where
  | TransportError
  | InternalError
  | Unimplemented
deriving DecidableEq

structure Err where
  code : ErrorCode
  message : String
deriving DecidableEq

deriving instance DecidableEq for Except

-- ===================================================================
-- Stable identifiers (src/codegen/emitter.cpp, lines 29-30 and 80-88)
-- ===================================================================

-- emitter.cpp line 29: `constexpr std::uint64_t kFNVOffset = 1469598103934665603ULL;`
def kFNVOffset : Nat := 1469598103934665603

-- emitter.cpp line 30: `constexpr std::uint64_t kFNVPrime = 1099511628211ULL;`
def kFNVPrime : Nat := 1099511628211

-- emitter.cpp stable_hash: hash = kFNVOffset; for each byte c of the
-- UTF-8 text: hash ^= c; hash *= kFNVPrime (uint64 wraparound).
def stable_hash (text : List Nat) : Nat :=
  text.foldl (fun hash c => ((hash ^^^ c) * kFNVPrime) % 2 ^ 64) kFNVOffset

-- Reference definition, from the spec: FNV-1a 64 offset basis
-- 14695981039346656037 and prime 1099511628211.
def fnv1a64Offset : Nat := 14695981039346656037

def fnv1a64_reference (text : List Nat) : Nat :=
  text.foldl (fun hash c => ((hash ^^^ c) * kFNVPrime) % 2 ^ 64) fnv1a64Offset

-- ===================================================================
-- Frame-layer CRC (src/runtime/frame.cpp, lines 11-36)
-- ===================================================================

-- One iteration of the reflected-polynomial loop body in crc32_for_byte.
def crcStep (r : Nat) : Nat :=
  if r &&& 1 = 1 then 0xEDB88320 ^^^ (r >>> 1) else r >>> 1

def crcLoop : Nat → Nat → Nat
  | 0, r => r
  | k + 1, r => crcLoop k (crcStep r)

-- frame.cpp crc32_for_byte: eight loop iterations, then `r ^ 0xFF000000`.
def crc32_for_byte (r : Nat) : Nat :=
  crcLoop 8 r ^^^ 0xFF000000

-- frame.cpp crc32 loop body: `table[(crc ^ byte) & 0xFF] ^ (crc >> 8)`.
def crc32_update (crc byte : Nat) : Nat :=
  crc32_for_byte ((crc ^^^ byte) &&& 255) ^^^ (crc >>> 8)

-- frame.cpp crc32: table-driven fold with initial value 0 and no final
-- XOR.
def crc32 (data : List Nat) : Nat :=
  data.foldl crc32_update 0

-- The same loop body over the unperturbed table (no 0xFF000000 term).
def crcLin_update (crc byte : Nat) : Nat :=
  crcLoop 8 ((crc ^^^ byte) &&& 255) ^^^ (crc >>> 8)

-- Reference definition, from the spec: the standard reflected CRC-32
-- with polynomial 0xEDB88320, initial value 0xFFFFFFFF and final XOR
-- 0xFFFFFFFF.
def crc32_reference (data : List Nat) : Nat :=
  data.foldl crcLin_update 0xFFFFFFFF ^^^ 0xFFFFFFFF

-- Proof device for the corruption-detection argument: the fold over the
-- unperturbed table with initial value 0 is the GF(2)-linear part of
-- crc32.
def crcLin (data : List Nat) : Nat :=
  data.foldl crcLin_update 0

-- ===================================================================
-- Frame header codec (src/runtime/frame.cpp, lines 38-146)
-- ===================================================================

inductive FrameType where
  | Data
  | Settings
  | Goodbye
  | Ping
  | Cancel
  | Error
deriving DecidableEq

def frameTypeToNat : FrameType → Nat
  | .Data => 0
  | .Settings => 1
  | .Goodbye => 2
  | .Ping => 3
  | .Cancel => 4
  | .Error => 5

-- Models valid_frame_type plus the static_cast to FrameType: the switch
-- accepts exactly the byte values 0..5.
def frameTypeOfNat : Nat → Option FrameType
  | 0 => some .Data
  | 1 => some .Settings
  | 2 => some .Goodbye
  | 3 => some .Ping
  | 4 => some .Cancel
  | 5 => some .Error
  | _ => none

structure FrameHeader where
  magic : Nat
  version : Nat
  type : FrameType
  flags : Nat
  length : Nat
  stream_id : Nat
  header_crc : Nat
deriving DecidableEq

def FrameHeaderMagic : Nat := 0x48425331

def FrameHeaderVersion : Nat := 0x0001

-- frame.cpp write_be16/write_be32/write_be64: big-endian byte splits
-- with an explicit `& 0xFF` mask on every byte.
def write_be16 (v : Nat) : List Nat :=
  [(v >>> 8) &&& 255, v &&& 255]

def write_be32 (v : Nat) : List Nat :=
  [(v >>> 24) &&& 255, (v >>> 16) &&& 255, (v >>> 8) &&& 255, v &&& 255]

def write_be64 (v : Nat) : List Nat :=
  [(v >>> 56) &&& 255, (v >>> 48) &&& 255, (v >>> 40) &&& 255, (v >>> 32) &&& 255,
   (v >>> 24) &&& 255, (v >>> 16) &&& 255, (v >>> 8) &&& 255, v &&& 255]

-- frame.cpp read_be16/read_be32: shift-and-or reconstruction.
def read_be16 (b0 b1 : Nat) : Nat :=
  (b0 <<< 8) ||| b1

def read_be32 (b0 b1 b2 b3 : Nat) : Nat :=
  (b0 <<< 24) ||| (b1 <<< 16) ||| (b2 <<< 8) ||| b3

-- frame.cpp read_be64: `value = (value << 8) | src[i]` on uint64.
def read_be64 (bytes : List Nat) : Nat :=
  bytes.foldl (fun v b => ((v <<< 8) % 2 ^ 64) ||| b) 0

-- encode_header, lines 95-115: the first 20 bytes.  The source copies
-- the input header and then overwrites magic and version with the
-- constants before writing, so the input magic/version never reach the
-- wire; the crc is computed over these 20 bytes.
def encode_header_body (h : FrameHeader) : List Nat :=
  write_be32 FrameHeaderMagic ++ write_be16 FrameHeaderVersion ++
    [frameTypeToNat h.type, h.flags] ++ write_be32 h.length ++ write_be64 h.stream_id

def encode_header (h : FrameHeader) : List Nat :=
  encode_header_body h ++ write_be32 (crc32 (encode_header_body h))

def byteAt (buffer : List Nat) (i : Nat) : Nat :=
  buffer.getD i 0

-- decode_header, lines 117-146.
def decode_header (buffer : List Nat) : Except Err FrameHeader :=
  let magic := read_be32 (byteAt buffer 0) (byteAt buffer 1) (byteAt buffer 2) (byteAt buffer 3)
  if magic ≠ FrameHeaderMagic then
    .error ⟨.TransportError, "invalid frame magic"⟩
  else
    let version := read_be16 (byteAt buffer 4) (byteAt buffer 5)
    if version ≠ FrameHeaderVersion then
      .error ⟨.TransportError, "unsupported frame version"⟩
    else
      match frameTypeOfNat (byteAt buffer 6) with
      | none => .error ⟨.TransportError, "unknown frame type"⟩
      | some t =>
        let flags := byteAt buffer 7
        let length := read_be32 (byteAt buffer 8) (byteAt buffer 9) (byteAt buffer 10) (byteAt buffer 11)
        let stream_id := read_be64 ((buffer.drop 12).take 8)
        let header_crc := read_be32 (byteAt buffer 20) (byteAt buffer 21) (byteAt buffer 22) (byteAt buffer 23)
        let computed := crc32 (buffer.take 20)
        if computed ≠ header_crc then
          .error ⟨.TransportError, "frame header crc mismatch"⟩
        else
          .ok ⟨magic, version, t, flags, length, stream_id, header_crc⟩

-- Corruption model for the detection property: flip one bit of one byte.
def flipBit (buffer : List Nat) (i : Nat) (bit : Nat) : List Nat :=
  buffer.set i (buffer.getD i 0 ^^^ (1 <<< bit))

-- A one-hot error vector of the same length as the header body.
def oneHot20 (i : Nat) (bit : Nat) : List Nat :=
  (List.replicate 20 0).set i (1 <<< bit)

-- ===================================================================
-- HB1 wire codec (src/runtime/serialization/hb1.cpp)
-- ===================================================================

-- Wire types are modeled by their raw byte value because the C++ code
-- casts arbitrary bytes into the WireType enum (Varint = 0,
-- ZigZagVarint = 1, Fixed32 = 2, Fixed64 = 3, LengthDelimited = 4,
-- Capability = 5).

inductive ValueKind where
  | Unsigned
  | Signed
  | String
  | Bytes
deriving DecidableEq

-- hb1::Value: the discriminant is the constructor; std::string payloads
-- are modeled by their byte lists (decode_string copies bytes verbatim).
inductive Hb1Value where
  | unsignedV (v : Nat)
  | signedV (v : Int)
  | stringV (bytes : List Nat)
  | bytesV (bytes : List Nat)
deriving DecidableEq

def valueKindOf : Hb1Value → ValueKind
  | .unsignedV _ => .Unsigned
  | .signedV _ => .Signed
  | .stringV _ => .String
  | .bytesV _ => .Bytes

structure FieldValue where
  id : Nat
  wire_type : Nat
  value : Hb1Value
deriving DecidableEq

structure FieldDescriptor where
  id : Nat
  wire_type : Nat
  optional : Bool
  preferred_kind : ValueKind
deriving DecidableEq

structure MessageDescriptor where
  fields : List FieldDescriptor
deriving DecidableEq

-- hb1.cpp find_field: first descriptor entry with the given id.
def find_field (descriptor : MessageDescriptor) (id : Nat) : Option FieldDescriptor :=
  descriptor.fields.find? (fun f => f.id == id)

-- hb1.cpp encode_varint_u64: unsigned LEB128; `(uint8_t)(value | 0x80)`
-- truncates to one byte.  The C++ loop runs until the value drops below
-- 0x80; ten iterations always suffice for a uint64, so the fuel
-- argument of the helper never runs out on the function's domain.
def encode_varint_go : Nat → Nat → List Nat
  | 0, v => [v]
  | k + 1, v => if 128 ≤ v then ((v ||| 128) &&& 255) :: encode_varint_go k (v >>> 7) else [v]

def encode_varint_u64 (v : Nat) : List Nat :=
  encode_varint_go 10 v

-- int64 values are modeled as Int together with the two's-complement
-- casts to and from uint64.
def toU64 (v : Int) : Nat :=
  (v % (2 ^ 64 : Int)).toNat

def fromU64 (n : Nat) : Int :=
  if n < 2 ^ 63 then (n : Int) else (n : Int) - 2 ^ 64

-- Writer methods (the sink is a VectorSink whose append always
-- succeeds, so the writers are pure byte producers).

def write_varint (v : Nat) : List Nat :=
  encode_varint_u64 v

-- Writer::write_zigzag: `(uint64)value << 1 ^ (uint64)(value >> 63)`;
-- the arithmetic right shift of an int64 gives 0 or -1, whose uint64
-- image is 0 or 2^64 - 1.
def write_zigzag (v : Int) : List Nat :=
  write_varint (((toU64 v <<< 1) % 2 ^ 64) ^^^ (if v < 0 then 2 ^ 64 - 1 else 0))

def write_tag (tag : Nat) (wire : Nat) : List Nat :=
  write_varint tag ++ [wire]

def write_field_varint (tag : Nat) (v : Nat) : List Nat :=
  write_tag tag 0 ++ write_varint v

def write_field_svarint (tag : Nat) (v : Int) : List Nat :=
  write_tag tag 1 ++ write_zigzag v

-- Writer::write_field_fixed32/fixed64 emit the same big-endian byte
-- math as the frame layer helpers, so those are reused here.
def write_field_fixed32 (tag : Nat) (v : Nat) : List Nat :=
  write_tag tag 2 ++ write_be32 v

def write_field_fixed64 (tag : Nat) (v : Nat) : List Nat :=
  write_tag tag 3 ++ write_be64 v

def write_field_bytes (tag : Nat) (bytes : List Nat) : List Nat :=
  write_tag tag 4 ++ write_varint bytes.length ++ bytes

-- SpanSource: read(n) hands out the next n bytes or fails with
-- "payload underrun"; empty() is exhaustion of the remaining bytes.
def src_read (src : List Nat) (n : Nat) : Except Err (List Nat × List Nat) :=
  if n ≤ src.length then .ok (src.take n, src.drop n)
  else .error ⟨.TransportError, "payload underrun"⟩

-- hb1.cpp read_varint (file-local helper): at most kMaxVarintBytes
-- iterations; `result |= (uint64)(byte & 0x7F) << shift` wraps mod 2^64.
def read_varint_loop : List Nat → Nat → Nat → Nat → Except Err (Nat × List Nat)
  | _, 0, _, _ => .error ⟨.TransportError, "varint too long"⟩
  | [], _ + 1, _, _ => .error ⟨.TransportError, "unexpected end of payload"⟩
  | byte :: rest, k + 1, result, shift =>
    let result := result ||| (((byte &&& 127) <<< shift) % 2 ^ 64)
    if byte &&& 128 = 0 then .ok (result, rest)
    else read_varint_loop rest k result (shift + 7)

def read_varint_src (src : List Nat) : Except Err (Nat × List Nat) :=
  read_varint_loop src 10 0 0

-- Reader::next, Varint/ZigZagVarint case: gather raw bytes into the
-- scratch buffer until a byte without the continuation bit, at most
-- kMaxVarintBytes of them.
def scan_varint_bytes : List Nat → Nat → Except Err (List Nat × List Nat)
  | _, 0 => .error ⟨.TransportError, "unterminated varint"⟩
  | [], _ + 1 => .error ⟨.TransportError, "payload underrun"⟩
  | byte :: rest, k + 1 =>
    if byte &&& 128 = 0 then .ok ([byte], rest)
    else
      match scan_varint_bytes rest k with
      | .ok (bytes, rest2) => .ok (byte :: bytes, rest2)
      | .error e => .error e

-- FieldView.data is a std::span<const uint8_t> (hb1.hpp line 27), not an
-- owning byte container.  For Fixed32/Fixed64/LengthDelimited/Capability
-- fields Reader::next points it into the payload source, which outlives
-- the decode, so those bytes are modeled directly.  For Varint and
-- ZigZagVarint fields Reader::next copies the scanned bytes into the
-- view's own scratch vector via assign and points the span at that
-- vector (hb1.cpp lines 169-185); the span is then only as stable as
-- that vector's storage, so it is modeled as a length into whatever the
-- scratch allocation holds when the span is finally read.
inductive ViewData where
  | direct (bytes : List Nat)
  | scratchSpan (len : Nat)
deriving DecidableEq

structure FieldView where
  id : Nat
  wire_type : Nat
  data : ViewData
deriving DecidableEq

-- What a span stored in a FieldView yields when it is read after the
-- scan loop, given the bytes then sitting in the scratch allocation.
def resolve_span (scratch : List Nat) : ViewData → List Nat
  | .direct bytes => bytes
  | .scratchSpan n => scratch.take n

-- Reader::next: returns none at end of source, otherwise one parsed
-- field view, the remaining source bytes, and the new content of the
-- scratch allocation of the FieldView passed in.  `out.id =
-- (uint32)*tag`.  out.scratch.clear() (hb1.cpp line 164) resets the
-- vector's size but leaves the bytes in its allocation; the
-- Varint/ZigZagVarint branch then overwrites the first count bytes via
-- assign (line 184), so afterwards the allocation holds the new bytes
-- followed by the old content beyond them.  The model assumes assign
-- never reallocates the storage (true whenever no later varint is
-- longer than the capacity the first assign reserved, e.g. when all
-- varints are one byte); a reallocation would move the storage and
-- leave previously stored spans dangling outright.
def reader_next (src : List Nat) (scratch : List Nat) :
    Except Err (Option (FieldView × List Nat × List Nat)) :=
  match src with
  | [] => .ok none
  | _ =>
    match read_varint_src src with
    | .error e => .error e
    | .ok (tag, rest1) =>
      match src_read rest1 1 with
      | .error e => .error e
      | .ok (wireBytes, rest2) =>
        let wire := wireBytes.getD 0 0
        match wire with
        | 0 =>
          match scan_varint_bytes rest2 10 with
          | .error e => .error e
          | .ok (bs, rest3) =>
            .ok (some (⟨tag % 2 ^ 32, wire, .scratchSpan bs.length⟩, rest3,
                       bs ++ scratch.drop bs.length))
        | 1 =>
          match scan_varint_bytes rest2 10 with
          | .error e => .error e
          | .ok (bs, rest3) =>
            .ok (some (⟨tag % 2 ^ 32, wire, .scratchSpan bs.length⟩, rest3,
                       bs ++ scratch.drop bs.length))
        | 2 =>
          match src_read rest2 4 with
          | .error e => .error e
          | .ok (bs, rest3) =>
            .ok (some (⟨tag % 2 ^ 32, wire, .direct bs⟩, rest3, scratch))
        | 3 =>
          match src_read rest2 8 with
          | .error e => .error e
          | .ok (bs, rest3) =>
            .ok (some (⟨tag % 2 ^ 32, wire, .direct bs⟩, rest3, scratch))
        | 4 =>
          match read_varint_src rest2 with
          | .error e => .error e
          | .ok (len, rest3) =>
            match src_read rest3 len with
            | .error e => .error e
            | .ok (bs, rest4) =>
              .ok (some (⟨tag % 2 ^ 32, wire, .direct bs⟩, rest4, scratch))
        | 5 =>
          match read_varint_src rest2 with
          | .error e => .error e
          | .ok (len, rest3) =>
            match src_read rest3 len with
            | .error e => .error e
            | .ok (bs, rest4) =>
              .ok (some (⟨tag % 2 ^ 32, wire, .direct bs⟩, rest4, scratch))
        | _ => .ok (some (⟨tag % 2 ^ 32, wire, .direct []⟩, rest2, scratch))

-- hb1.cpp decode_varint (span overload): no byte-count limit; the C++
-- left shift is undefined behaviour once shift reaches 64, modeled here
-- as the customary wraparound (the decoder is only ever applied to
-- scratch buffers of at most 10 bytes produced by Reader::next).
def decode_varint_go : List Nat → Nat → Nat → Except Err Nat
  | [], _, _ => .error ⟨.TransportError, "unterminated varint payload"⟩
  | byte :: rest, result, shift =>
    let result := result ||| (((byte &&& 127) <<< shift) % 2 ^ 64)
    if byte &&& 128 = 0 then .ok result
    else decode_varint_go rest result (shift + 7)

def hb1_decode_varint (data : List Nat) : Except Err Nat :=
  decode_varint_go data 0 0

-- hb1.cpp decode_zigzag: `(int64)((value >> 1) ^ -(int64)(value & 1))`;
-- the negation promotes to uint64 0 or 2^64 - 1 inside the xor.
def hb1_decode_zigzag (data : List Nat) : Except Err Int :=
  match hb1_decode_varint data with
  | .error e => .error e
  | .ok value =>
    .ok (fromU64 ((value >>> 1) ^^^ (if value &&& 1 = 1 then 2 ^ 64 - 1 else 0)))

-- hb1.cpp encode_value.
def encode_value (v : FieldValue) : Except Err (List Nat) :=
  match v.wire_type with
  | 0 =>
    match v.value with
    | .unsignedV u => .ok (write_field_varint v.id u)
    | _ => .error ⟨.InternalError, "value kind mismatch"⟩
  | 1 =>
    match v.value with
    | .signedV s => .ok (write_field_svarint v.id s)
    | _ => .error ⟨.InternalError, "value kind mismatch"⟩
  | 2 =>
    match v.value with
    | .unsignedV u => .ok (write_field_fixed32 v.id (u % 2 ^ 32))
    | _ => .error ⟨.InternalError, "value kind mismatch"⟩
  | 3 =>
    match v.value with
    | .unsignedV u => .ok (write_field_fixed64 v.id u)
    | _ => .error ⟨.InternalError, "value kind mismatch"⟩
  | 4 =>
    match v.value with
    | .stringV s => .ok (write_field_bytes v.id s)
    | .bytesV b => .ok (write_field_bytes v.id b)
    | _ => .error ⟨.InternalError, "length-delimited field requires string/bytes"⟩
  | 5 => .error ⟨.Unimplemented, "capability encoding not implemented"⟩
  | _ => .error ⟨.InternalError, "unknown wire type"⟩

-- hb1.cpp encode_message: walk the values in input order; look up the
-- descriptor per value; check wire type and (for length-delimited
-- fields) the preferred value kind; emit.
def encode_message_go (d : MessageDescriptor) : List FieldValue → Except Err (List Nat)
  | [] => .ok []
  | v :: rest =>
    match find_field d v.id with
    | none => .error ⟨.InternalError, "unknown field id in encode_message"⟩
    | some desc =>
      if desc.wire_type ≠ v.wire_type then
        .error ⟨.InternalError, "wire type mismatch in encode_message"⟩
      else if desc.wire_type = 4 ∧ desc.preferred_kind = .String ∧ valueKindOf v.value ≠ .String then
        .error ⟨.InternalError, "length-delimited field expects string"⟩
      else if desc.wire_type = 4 ∧ desc.preferred_kind = .Bytes ∧ valueKindOf v.value ≠ .Bytes then
        .error ⟨.InternalError, "length-delimited field expects bytes"⟩
      else
        match encode_value v with
        | .error e => .error e
        | .ok bytes =>
          match encode_message_go d rest with
          | .error e => .error e
          | .ok more => .ok (bytes ++ more)

def encode_message (d : MessageDescriptor) (values : List FieldValue) : Except Err (List Nat) :=
  encode_message_go d values

-- decode_message phase 1 (hb1.cpp lines 380-391): a single FieldView is
-- reused for every Reader::next call and copied into views by
-- push_back.  The copy duplicates the scratch vector, but the copied
-- data span still points into the loop view's scratch storage, which
-- the next varint scan overwrites — hence the scratch content is
-- threaded through the loop and returned alongside the views: it is
-- what every stored scratchSpan sees in phase 2.
def read_fields_go : Nat → List Nat → List Nat → Except Err (List FieldView × List Nat)
  | 0, _, _ => .error ⟨.InternalError, "fuel exhausted"⟩
  | fuel + 1, src, scratch =>
    match reader_next src scratch with
    | .error e => .error e
    | .ok none => .ok ([], scratch)
    | .ok (some (view, rest, scratch2)) =>
      match read_fields_go fuel rest scratch2 with
      | .error e => .error e
      | .ok (views, final) => .ok (view :: views, final)

-- Each Reader::next call consumes at least one byte, so length + 1
-- steps always suffice.  The loop view starts default-constructed with
-- an empty scratch vector.
def read_fields (src : List Nat) : Except Err (List FieldView × List Nat) :=
  read_fields_go (src.length + 1) src []

-- decode_message phase 2, per recognized view: the switch over the
-- transported wire type, applied to the bytes the stored span yields at
-- this point (i.e. through the final scratch content for varint views).
-- Unmatched wire values fall through the C++ switch leaving the default
-- Value (Unsigned 0).
def convert_field (desc : FieldDescriptor) (scratch : List Nat) (view : FieldView) :
    Except Err FieldValue :=
  let data := resolve_span scratch view.data
  match view.wire_type with
  | 0 =>
    match hb1_decode_varint data with
    | .error e => .error e
    | .ok u => .ok ⟨view.id, view.wire_type, .unsignedV u⟩
  | 1 =>
    match hb1_decode_zigzag data with
    | .error e => .error e
    | .ok s => .ok ⟨view.id, view.wire_type, .signedV s⟩
  | 2 =>
    if data.length ≠ 4 then .error ⟨.TransportError, "fixed32 length mismatch"⟩
    else
      .ok ⟨view.id, view.wire_type,
           .unsignedV (read_be32 (byteAt data 0) (byteAt data 1)
                         (byteAt data 2) (byteAt data 3))⟩
  | 3 =>
    if data.length ≠ 8 then .error ⟨.TransportError, "fixed64 length mismatch"⟩
    else .ok ⟨view.id, view.wire_type, .unsignedV (read_be64 data)⟩
  | 4 =>
    if desc.preferred_kind = .String then .ok ⟨view.id, view.wire_type, .stringV data⟩
    else .ok ⟨view.id, view.wire_type, .bytesV data⟩
  | 5 => .error ⟨.Unimplemented, "capability decoding not implemented"⟩
  | _ => .ok ⟨view.id, view.wire_type, .unsignedV 0⟩

-- decode_message phase 2: unknown ids are skipped.
def convert_fields (d : MessageDescriptor) (scratch : List Nat) :
    List FieldView → Except Err (List FieldValue)
  | [] => .ok []
  | view :: rest =>
    match find_field d view.id with
    | none => convert_fields d scratch rest
    | some desc =>
      match convert_field desc scratch view with
      | .error e => .error e
      | .ok value =>
        match convert_fields d scratch rest with
        | .error e => .error e
        | .ok values => .ok (value :: values)

-- decode_message phase 3: every non-optional descriptor field must have
-- appeared.
def required_present (d : MessageDescriptor) (values : List FieldValue) : Bool :=
  d.fields.all (fun f => f.optional || values.any (fun v => v.id == f.id))

def decode_message (d : MessageDescriptor) (src : List Nat) : Except Err (List FieldValue) :=
  match read_fields src with
  | .error e => .error e
  | .ok (views, scratch) =>
    match convert_fields d scratch views with
    | .error e => .error e
    | .ok values =>
      if required_present d values then .ok values
      else .error ⟨.TransportError, "missing required field"⟩

-- The compatibility premise of the HB1 round-trip claim: the field value
-- agrees with its descriptor entry in id, wire type and value kind, and
-- the carried value is representable in the wire type (uint64 for
-- varints and Fixed64, int64 for ZigZag, uint32 for Fixed32, uint32 ids,
-- byte payloads of uint8 values with a uint64 length).
def field_compat_b (d : MessageDescriptor) (v : FieldValue) : Bool :=
  decide (v.id < 2 ^ 32) &&
    match find_field d v.id with
    | none => false
    | some desc =>
      (desc.wire_type == v.wire_type) &&
        match v.wire_type, v.value with
        | 0, .unsignedV u => decide (u < 2 ^ 64)
        | 1, .signedV s => decide (-(2 ^ 63 : Int) ≤ s) && decide (s < 2 ^ 63)
        | 2, .unsignedV u => decide (u < 2 ^ 32)
        | 3, .unsignedV u => decide (u < 2 ^ 64)
        | 4, .stringV bs =>
          (desc.preferred_kind == .String) && decide (bs.length < 2 ^ 64) &&
            bs.all (fun b => decide (b < 256))
        | 4, .bytesV bs =>
          (desc.preferred_kind == .Bytes) && decide (bs.length < 2 ^ 64) &&
            bs.all (fun b => decide (b < 256))
        | _, _ => false

-- ===================================================================
-- Reactor server data path (src/runtime/context.cpp, rpc.cpp)
-- ===================================================================

-- context.cpp read_varint (file-local helper): rejects a shift that
-- reaches 64 with "varint too long", exhaustion with "truncated varint".
def ctx_read_varint_go : List Nat → Nat → Nat → Except Err (Nat × List Nat)
  | [], _, _ => .error ⟨.TransportError, "truncated varint"⟩
  | byte :: rest, result, shift =>
    let result := result ||| (((byte &&& 127) <<< shift) % 2 ^ 64)
    if byte &&& 128 = 0 then .ok (result, rest)
    else if 64 ≤ shift + 7 then .error ⟨.TransportError, "varint too long"⟩
    else ctx_read_varint_go rest result (shift + 7)

def ctx_read_varint (payload : List Nat) : Except Err (Nat × List Nat) :=
  ctx_read_varint_go payload 0 0

-- rpc::Status (rpc.hpp): Ok=0, ApplicationError=1, InvalidRequest=2,
-- NotFound=3, InternalError=4.
inductive Status where
  | Ok
  | ApplicationError
  | InvalidRequest
  | NotFound
  | InternalError
deriving DecidableEq

def statusToNat : Status → Nat
  | .Ok => 0
  | .ApplicationError => 1
  | .InvalidRequest => 2
  | .NotFound => 3
  | .InternalError => 4

-- Encoding::Hb1 = 0 (encoding.hpp).
def EncodingHb1 : Nat := 0

structure RpcRequest where
  module_id : Nat
  interface_id : Nat
  method_id : Nat
  encoding : Nat
  payload : List Nat
deriving DecidableEq

structure ParsedRequest where
  request : RpcRequest
  request_id : Nat
deriving DecidableEq

-- context.cpp parse_rpc_request: five leading varints
-- (module, interface, method, encoding, request id), the rest is the body;
-- any encoding other than Hb1 is rejected.
def parse_rpc_request (payload : List Nat) : Except Err ParsedRequest :=
  match ctx_read_varint payload with
  | .error e => .error e
  | .ok (module_id, r1) =>
    match ctx_read_varint r1 with
    | .error e => .error e
    | .ok (interface_id, r2) =>
      match ctx_read_varint r2 with
      | .error e => .error e
      | .ok (method_id, r3) =>
        match ctx_read_varint r3 with
        | .error e => .error e
        | .ok (encoding_id, r4) =>
          if encoding_id ≠ EncodingHb1 then
            .error ⟨.TransportError, "unsupported encoding"⟩
          else
            match ctx_read_varint r4 with
            | .error e => .error e
            | .ok (request_id, r5) =>
              .ok ⟨⟨module_id, interface_id, method_id, EncodingHb1, r5⟩, request_id⟩

-- context.cpp build_response_payload: varint(Encoding::Hb1), one status
-- byte, then the body.  The append_varint lambda emits the same LEB128
-- bytes as encode_varint_u64.
def build_response_payload (status : Status) (body : List Nat) : List Nat :=
  encode_varint_u64 EncodingHb1 ++ [statusToNat status] ++ body

def FrameFlagEndStream : Nat := 1

-- The frame assembled by send_rpc_response (sending itself is I/O and
-- outside the model).
structure OutFrame where
  type : FrameType
  flags : Nat
  stream_id : Nat
  payload : List Nat
deriving DecidableEq

def send_rpc_response_frame (stream_id : Nat) (status : Status) (body : List Nat) : OutFrame :=
  ⟨.Data, FrameFlagEndStream, stream_id, build_response_payload status body⟩

-- The observable outcome of handle_server_data: either a reply frame is
-- sent, or the registered handler is invoked with the parsed request.
inductive ServerAction where
  | reply (frame : OutFrame)
  | invoke (request : RpcRequest) (stream_id : Nat)
deriving DecidableEq

-- Registry::find_handler (rpc.cpp): a mutex-protected map from
-- interface id to handler; handlers are opaque here, only presence
-- matters, so the registry is modeled as the set of registered ids.
def find_handler_registered (registered : List Nat) (interface_id : Nat) : Bool :=
  registered.contains interface_id

-- context.cpp handle_server_data, lines 579-604.
def handle_server_data (registered : List Nat) (stream_id : Nat) (payload : List Nat) :
    ServerAction :=
  match parse_rpc_request payload with
  | .error _ => .reply (send_rpc_response_frame stream_id .InvalidRequest [])
  | .ok parsed =>
    if find_handler_registered registered parsed.request.interface_id then
      .invoke parsed.request stream_id
    else
      .reply (send_rpc_response_frame stream_id .NotFound [])

-- ===================================================================
-- Import resolver (src/frontend/frontend.cpp, detail::parse_imports)
-- ===================================================================

-- Paths are component lists; `p.dropLast` models
-- `fs::path(p).remove_filename()` and list append models `operator/`.
-- The filesystem and parser are modeled together: each file that exists
-- maps to the list of (relative) import paths its parse yields.
def ImportFs : Type := List (List String × List (List String))

def fs_lookup (fs : ImportFs) (path : List String) : Option (List (List String)) :=
  (fs.find? (fun entry => entry.1 == path)).map (fun entry => entry.2)

-- detail::parse_imports.  parse_imports_aux fuel dir pending parsed
-- processes the remaining `pending` imports of a file whose directory
-- is `dir`: resolve each import against the directory of the file that
-- is currently being parsed (`root_path.remove_filename()` in the
-- source); silently skip an import already in the program map;
-- otherwise read, record and recurse into the imported file.  The fuel
-- argument bounds the recursion; it never runs out when it exceeds the
-- total number of files and imports, since every step either consumes a
-- pending import or opens a file not yet parsed.
def parse_imports_aux (fs : ImportFs) : Nat → List String → List (List String) →
    List (List String) → Except String (List (List String))
  | 0, _, _, _ => .error "recursion limit"
  | _ + 1, _, [], parsed => .ok parsed
  | fuel + 1, dir, imp :: rest, parsed =>
    if parsed.contains (dir ++ imp) then parse_imports_aux fs fuel dir rest parsed
    else
      match fs_lookup fs (dir ++ imp) with
      | none => .error "Failed to open file"
      | some imports =>
        match parse_imports_aux fs fuel (dir ++ imp).dropLast imports (parsed ++ [dir ++ imp]) with
        | .error e => .error e
        | .ok parsed2 => parse_imports_aux fs fuel dir rest parsed2

-- Entry point, modeling parse_imports on the root path followed by
-- parse_program: the result is the key list of Program::Files in
-- insertion order.
def parse_program_paths (fs : ImportFs) (root : List String) :
    Except String (List (List String)) :=
  match fs_lookup fs root with
  | none => .error "Failed to open file"
  | some imports =>
    parse_imports_aux fs (fs.length + imports.length + 16) root.dropLast imports [root]

-- ===================================================================
-- Stream dispatcher (src/runtime/uds.cpp, SimpleDispatcher)
-- ===================================================================

structure DispatcherState (R : Type) where
  next_id : Nat
  handlers : Nat → Option R

-- next_id_{1}: the counter starts at 1; handlers_ empty.
def dispatcher_init (R : Type) : DispatcherState R :=
  ⟨1, fun _ => none⟩

-- `return next_id_++;` on an atomic uint64.
def open_stream {R : Type} (s : DispatcherState R) : Nat × DispatcherState R :=
  (s.next_id, ⟨(s.next_id + 1) % 2 ^ 64, s.handlers⟩)

-- `handlers_[stream_id] = handler;` (unordered_map insert-or-assign).
def set_response_handler {R : Type} (s : DispatcherState R) (stream_id : Nat) (handler : R) :
    DispatcherState R :=
  ⟨s.next_id, fun k => if k = stream_id then some handler else s.handlers k⟩

-- take_response_handler: find, move out, erase.
def take_response_handler {R : Type} (s : DispatcherState R) (stream_id : Nat) :
    Option R × DispatcherState R :=
  match s.handlers stream_id with
  | none => (none, s)
  | some handler => (some handler, ⟨s.next_id, fun k => if k = stream_id then none else s.handlers k⟩)

-- State after n open_stream calls from the initial dispatcher.
def opens_state (R : Type) : Nat → DispatcherState R
  | 0 => dispatcher_init R
  | n + 1 => (open_stream (opens_state R n)).2

-- Id returned by the (n+1)-th open_stream call (n counted from 0).
def open_id (R : Type) (n : Nat) : Nat :=
  (open_stream (opens_state R n)).1

-- ===================================================================
-- Semantic id validation (src/frontend/semantic/utility.hpp)
-- ===================================================================

inductive Severity where
  | Error
  | Warning
  | Note
deriving DecidableEq

structure Diagnostic where
  severity : Severity
  message : String
deriving DecidableEq

def kMaxId : Nat := 2 ^ 31 - 1

-- check_id_bounds (utility.hpp lines 30-46).  The source quotes the id
-- in single quotes; the quote characters are elided here.
def check_id_bounds (id : Nat) (element_kind owner_label : String) : List Diagnostic :=
  if id = 0 then
    [⟨.Error, "Invalid " ++ element_kind ++ " id 0 in " ++ owner_label ++
      "; ids must start at 1"⟩]
  else if kMaxId < id then
    [⟨.Error, "Invalid " ++ element_kind ++ " id " ++ toString id ++ " in " ++ owner_label ++
      "; maximum allowed value is " ++ toString kMaxId⟩]
  else []

-- The bounds/duplicate traversal of check_id_collection: the `seen` map
-- is modeled by the list of ids already visited.
def check_ids_pass (element_kind owner_label : String) :
    List Nat → List Nat → List Diagnostic
  | [], _ => []
  | id :: rest, seen =>
    check_id_bounds id element_kind owner_label ++
      (if seen.contains id then
        [⟨.Error, "Duplicate " ++ element_kind ++ " id " ++ toString id ++ " in " ++ owner_label⟩]
      else []) ++
      check_ids_pass element_kind owner_label rest (seen ++ [id])

-- Models the std::sort over the collected ids (for the unique ids the
-- theorems consider, any comparison sort produces this result).
def insert_sorted (x : Nat) : List Nat → List Nat
  | [] => [x]
  | y :: rest => if x ≤ y then x :: y :: rest else y :: insert_sorted x rest

def sort_ids : List Nat → List Nat
  | [] => []
  | x :: rest => insert_sorted x (sort_ids rest)

def gap_message (prev current : Nat) (element_kind owner_label : String) : String :=
  "Gap detected between " ++ toString prev ++ " and " ++ toString current ++
    " for " ++ element_kind ++ " ids in " ++ owner_label

-- The gap scan over adjacent entries of the sorted ids
-- (utility.hpp lines 70-79).
def gap_notes (element_kind owner_label : String) : List Nat → List Diagnostic
  | [] => []
  | [_] => []
  | a :: b :: rest =>
    (if a + 1 < b then [⟨.Note, gap_message a b element_kind owner_label⟩] else []) ++
      gap_notes element_kind owner_label (b :: rest)

-- check_id_collection (utility.hpp lines 48-80).
def check_id_collection (ids : List Nat) (owner_label element_kind : String) : List Diagnostic :=
  check_ids_pass element_kind owner_label ids [] ++
    gap_notes element_kind owner_label (sort_ids ids)

-- Concrete data for exercising decode_message: a descriptor with one
-- required varint field (id 1), an input that also carries an unknown
-- field id 9, and the same input without it.
def D5w : MessageDescriptor := ⟨[⟨1, 0, false, ValueKind.Unsigned⟩]⟩

def input5w : List Nat := write_field_varint 1 17 ++ write_field_varint 9 5

def input5w2 : List Nat := write_field_varint 1 17

-- Concrete data for the HB1 round trip: a descriptor with two required
-- varint fields and a message giving them the distinct values 1 and 2.
def D3w : MessageDescriptor :=
  ⟨[⟨1, 0, false, ValueKind.Unsigned⟩, ⟨2, 0, false, ValueKind.Unsigned⟩]⟩

def M3w : List FieldValue := [⟨1, 0, .unsignedV 1⟩, ⟨2, 0, .unsignedV 2⟩]

-- ===================================================================
-- Theorems.  First a small toolkit of bit-level lemmas about Nat.
-- ===================================================================

-- Splitting a value at bit k and re-assembling with a shifted or.
theorem chunk_or (x s k : Nat) :
    ((x &&& (2 ^ k - 1)) <<< s) ||| ((x >>> k) <<< (s + k)) = x <<< s := by
  apply Nat.eq_of_testBit_eq
  intro i
  simp only [Nat.testBit_or, Nat.testBit_shiftLeft, Nat.testBit_and, Nat.testBit_shiftRight,
    Nat.testBit_two_pow_sub_one]
  by_cases h1 : s ≤ i
  · by_cases h2 : s + k ≤ i
    · have e : k + (i - (s + k)) = i - s := by omega
      have e2 : ¬(i - s < k) := by omega
      simp [h1, h2, e, e2]
    · have e2 : i - s < k := by omega
      simp [h1, h2, e2]
  · have h2 : ¬(s + k ≤ i) := by omega
    simp [h1, h2]

theorem or_low_high (x : Nat) : (x &&& 255) ||| ((x >>> 8) <<< 8) = x := by
  have h := chunk_or x 0 8
  rw [Nat.shiftLeft_zero, Nat.shiftLeft_zero, Nat.zero_add] at h
  norm_num at h
  exact h

theorem and_255_lt (x : Nat) : x &&& 255 < 256 :=
  Nat.lt_succ_of_le Nat.and_le_right

theorem and_127_eq_mod (x : Nat) : x &&& 127 = x % 128 := by
  have h := Nat.and_pow_two_sub_one_eq_mod x 7
  norm_num at h
  exact h

theorem and_128_of_lt {v : Nat} (h : v < 128) : v &&& 128 = 0 := by
  apply Nat.eq_of_testBit_eq
  intro i
  rw [show (128 : Nat) = 2 ^ 7 from rfl]
  simp only [Nat.testBit_and, Nat.testBit_two_pow, Nat.zero_testBit]
  rcases eq_or_ne i 7 with rfl | hne
  · simp [Nat.testBit_lt_two_pow (show v < 2 ^ 7 by omega)]
  · simp [Ne.symm hne]

theorem msb_byte_and_128 (v : Nat) : ((v ||| 128) &&& 255) &&& 128 = 128 := by
  apply Nat.eq_of_testBit_eq
  intro i
  rw [show (128 : Nat) = 2 ^ 7 from rfl, show (255 : Nat) = 2 ^ 8 - 1 from rfl]
  simp only [Nat.testBit_and, Nat.testBit_or, Nat.testBit_two_pow, Nat.testBit_two_pow_sub_one]
  rcases eq_or_ne i 7 with rfl | hne
  · simp
  · simp [Ne.symm hne]

theorem msb_byte_and_127 (v : Nat) : ((v ||| 128) &&& 255) &&& 127 = v &&& 127 := by
  apply Nat.eq_of_testBit_eq
  intro i
  rw [show (128 : Nat) = 2 ^ 7 from rfl, show (255 : Nat) = 2 ^ 8 - 1 from rfl,
    show (127 : Nat) = 2 ^ 7 - 1 from rfl]
  simp only [Nat.testBit_and, Nat.testBit_or, Nat.testBit_two_pow, Nat.testBit_two_pow_sub_one]
  by_cases h : i < 7
  · have : ¬(7 = i) := by omega
    have h8 : i < 8 := by omega
    simp [this, h, h8]
  · simp [h]

theorem xor_mul_two_add (a b c d : Nat) (hb : b < 2) (hd : d < 2) :
    (2 * a + b) ^^^ (2 * c + d) = 2 * (a ^^^ c) + (b ^^^ d) := by
  have hb1 : b < 2 ^ 1 := by omega
  have hd1 : d < 2 ^ 1 := by omega
  have hx : b ^^^ d < 2 := by
    have := Nat.xor_lt_two_pow hb1 hd1
    omega
  apply Nat.eq_of_testBit_eq
  intro i
  rw [Nat.testBit_xor]
  cases i with
  | zero =>
    simp only [Nat.testBit_zero]
    have h1 : (2 * a + b) % 2 = b := by omega
    have h2 : (2 * c + d) % 2 = d := by omega
    have h3 : (2 * (a ^^^ c) + (b ^^^ d)) % 2 = b ^^^ d := by omega
    rw [h1, h2, h3]
    interval_cases b <;> interval_cases d <;> decide
  | succ i =>
    simp only [Nat.testBit_add_one]
    have h1 : (2 * a + b) / 2 = a := by omega
    have h2 : (2 * c + d) / 2 = c := by omega
    have h3 : (2 * (a ^^^ c) + (b ^^^ d)) / 2 = a ^^^ c := by omega
    rw [h1, h2, h3, Nat.testBit_xor]

-- XOR with the all-ones word of width n is subtraction from it.
theorem xor_all_ones {n r : Nat} (h : r < 2 ^ n) : r ^^^ (2 ^ n - 1) = 2 ^ n - 1 - r := by
  induction n generalizing r with
  | zero =>
    have : r = 0 := by omega
    simp [this]
  | succ n ih =>
    have hpow : (2 : Nat) ^ (n + 1) = 2 * 2 ^ n := by ring
    have hpos : 0 < (2 : Nat) ^ n := Nat.pos_pow_of_pos n (by omega)
    have hr2 : r / 2 < 2 ^ n := by omega
    have key := ih hr2
    have hmod : r % 2 ^^^ 1 = 1 - r % 2 := by
      rcases Nat.mod_two_eq_zero_or_one r with h2 | h2 <;> simp [h2]
    calc r ^^^ (2 ^ (n + 1) - 1)
        = (2 * (r / 2) + r % 2) ^^^ (2 * (2 ^ n - 1) + 1) := by
          congr 1
          · omega
          · omega
      _ = 2 * ((r / 2) ^^^ (2 ^ n - 1)) + (r % 2 ^^^ 1) :=
          xor_mul_two_add _ _ _ _ (by omega) (by omega)
      _ = 2 * (2 ^ n - 1 - r / 2) + (1 - r % 2) := by rw [key, hmod]
      _ = 2 ^ (n + 1) - 1 - r := by omega

theorem xor_cancel_right_nat {a b c : Nat} (h : a ^^^ c = b ^^^ c) : a = b := by
  have := congrArg (fun x => x ^^^ c) h
  simpa [Nat.xor_assoc] using this

-- ===================================================================
-- C1: the emitter hash versus the reference FNV-1a 64
-- ===================================================================

-- The per-byte FNV-1a step is injective modulo 2^64, so the two folds
-- (which differ only in their seeds) never collide on byte input.
theorem fnv_fold_ne (bs : List Nat) :
    ∀ h1 h2 : Nat, h1 < 2 ^ 64 → h2 < 2 ^ 64 → h1 ≠ h2 → (∀ c ∈ bs, c < 256) →
      bs.foldl (fun hash c => ((hash ^^^ c) * kFNVPrime) % 2 ^ 64) h1 ≠
        bs.foldl (fun hash c => ((hash ^^^ c) * kFNVPrime) % 2 ^ 64) h2 := by
  induction bs with
  | nil => intro h1 h2 _ _ hne _; simpa using hne
  | cons c rest ih =>
    intro h1 h2 hlt1 hlt2 hne hbytes
    simp only [List.foldl_cons]
    apply ih
    · exact Nat.mod_lt _ (by positivity)
    · exact Nat.mod_lt _ (by positivity)
    · intro heq
      have hco : Nat.gcd (2 ^ 64) kFNVPrime = 1 := by decide
      have hmod : (h1 ^^^ c) * kFNVPrime ≡ (h2 ^^^ c) * kFNVPrime [MOD 2 ^ 64] := by
        unfold Nat.ModEq
        simpa using heq
      have hc : c < 2 ^ 64 := by
        have := hbytes c (by simp)
        omega
      have hx1 : h1 ^^^ c < 2 ^ 64 := Nat.xor_lt_two_pow hlt1 hc
      have hx2 : h2 ^^^ c < 2 ^ 64 := Nat.xor_lt_two_pow hlt2 hc
      have := Nat.ModEq.cancel_right_of_coprime hco hmod
      have hxeq : h1 ^^^ c = h2 ^^^ c := by
        have h1m := Nat.mod_eq_of_lt hx1
        have h2m := Nat.mod_eq_of_lt hx2
        unfold Nat.ModEq at this
        omega
      exact hne (xor_cancel_right_nat hxeq)
    · intro b hb
      exact hbytes b (by simp [hb])

theorem stable_hash_ne_reference (bs : List Nat) (hbytes : ∀ c ∈ bs, c < 256) :
    stable_hash bs ≠ fnv1a64_reference bs := by
  unfold stable_hash fnv1a64_reference
  exact fnv_fold_ne bs kFNVOffset fnv1a64Offset (by decide) (by decide) (by decide) hbytes

/-- Claim C1: the emitter's stable_hash is claimed to equal the reference
FNV-1a 64 hash (offset basis 14695981039346656037, prime 1099511628211)
of the UTF-8 bytes of the symbolic name.  It does not: emitter.cpp
initializes the fold with kFNVOffset = 1469598103934665603, the FNV-1a
offset basis with its final digit 7 dropped.  On the empty name the two
sides are the two distinct seeds, and on the sample interface name
"sample.Echo" (bytes below) the hashes again disagree. -/
theorem c1_stable_hash_is_not_fnv1a64 :
    stable_hash [] = 1469598103934665603 ∧
    fnv1a64_reference [] = 14695981039346656037 ∧
    stable_hash [] ≠ fnv1a64_reference [] ∧
    stable_hash [115, 97, 109, 112, 108, 101, 46, 69, 99, 104, 111] ≠
      fnv1a64_reference [115, 97, 109, 112, 108, 101, 46, 69, 99, 104, 111] := by
  refine ⟨by decide, by decide, by decide, ?_⟩
  exact stable_hash_ne_reference _ (by decide)

-- ===================================================================
-- CRC lemmas: range bounds and GF(2) linearity
-- ===================================================================

theorem crcStep_lt {r : Nat} (h : r < 2 ^ 32) : crcStep r < 2 ^ 32 := by
  unfold crcStep
  have hs : r >>> 1 < 2 ^ 32 := by
    rw [Nat.shiftRight_eq_div_pow]
    omega
  split
  · exact Nat.xor_lt_two_pow (by decide) hs
  · exact hs

theorem crcLoop_lt {r : Nat} (h : r < 2 ^ 32) : ∀ k, crcLoop k r < 2 ^ 32 := by
  intro k
  induction k generalizing r with
  | zero => simpa [crcLoop] using h
  | succ k ih => exact ih (crcStep_lt h)

theorem crc32_update_lt {c b : Nat} (h : c < 2 ^ 32) : crc32_update c b < 2 ^ 32 := by
  unfold crc32_update crc32_for_byte
  have h255 : (c ^^^ b) &&& 255 < 2 ^ 32 := by
    have := and_255_lt (c ^^^ b)
    omega
  have h1 : crcLoop 8 ((c ^^^ b) &&& 255) ^^^ 0xFF000000 < 2 ^ 32 :=
    Nat.xor_lt_two_pow (crcLoop_lt h255 8) (by decide)
  have h2 : c >>> 8 < 2 ^ 32 := by
    rw [Nat.shiftRight_eq_div_pow]
    omega
  exact Nat.xor_lt_two_pow h1 h2

theorem crc32_foldl_lt (data : List Nat) : ∀ acc, acc < 2 ^ 32 →
    data.foldl crc32_update acc < 2 ^ 32 := by
  induction data with
  | nil => intro acc h; simpa using h
  | cons b rest ih =>
    intro acc h
    simpa using ih (crc32_update acc b) (crc32_update_lt h)

theorem crc32_lt (data : List Nat) : crc32 data < 2 ^ 32 :=
  crc32_foldl_lt data 0 (by decide)

theorem xor_shiftRight_distrib (a b k : Nat) : (a ^^^ b) >>> k = (a >>> k) ^^^ (b >>> k) := by
  apply Nat.eq_of_testBit_eq
  intro i
  simp [Nat.testBit_xor, Nat.testBit_shiftRight]

theorem xor_rotate (p x y : Nat) : p ^^^ (x ^^^ y) = x ^^^ (p ^^^ y) := by
  apply Nat.eq_of_testBit_eq
  intro i
  simp only [Nat.testBit_xor]
  cases p.testBit i <;> cases x.testBit i <;> cases y.testBit i <;> rfl

theorem xor_cancel_middle (p x y : Nat) : (p ^^^ x) ^^^ (p ^^^ y) = x ^^^ y := by
  apply Nat.eq_of_testBit_eq
  intro i
  simp only [Nat.testBit_xor]
  cases p.testBit i <;> cases x.testBit i <;> cases y.testBit i <;> rfl

theorem crcStep_linear (a b : Nat) : crcStep (a ^^^ b) = crcStep a ^^^ crcStep b := by
  unfold crcStep
  have hpar : (a ^^^ b) &&& 1 = (a &&& 1) ^^^ (b &&& 1) := Nat.and_xor_distrib_right
  have hsh : (a ^^^ b) >>> 1 = (a >>> 1) ^^^ (b >>> 1) := xor_shiftRight_distrib a b 1
  have ha : a &&& 1 = 0 ∨ a &&& 1 = 1 := by
    have : a &&& 1 ≤ 1 := Nat.and_le_right
    omega
  have hb : b &&& 1 = 0 ∨ b &&& 1 = 1 := by
    have : b &&& 1 ≤ 1 := Nat.and_le_right
    omega
  rcases ha with ha | ha <;> rcases hb with hb | hb <;>
    simp only [hpar, hsh, ha, hb] <;> norm_num
  · exact xor_rotate _ _ _
  · exact (Nat.xor_assoc _ _ _).symm
  · exact (xor_cancel_middle _ _ _).symm

theorem crcLoop_linear (k : Nat) : ∀ a b : Nat, crcLoop k (a ^^^ b) = crcLoop k a ^^^ crcLoop k b := by
  induction k with
  | zero => intro a b; rfl
  | succ k ih =>
    intro a b
    show crcLoop k (crcStep (a ^^^ b)) = crcLoop k (crcStep a) ^^^ crcLoop k (crcStep b)
    rw [crcStep_linear, ih]

theorem crc_update_xor (c l b f : Nat) :
    crc32_update (c ^^^ l) (b ^^^ f) = crc32_update c b ^^^ crcLin_update l f := by
  unfold crc32_update crcLin_update crc32_for_byte
  have e1 : (c ^^^ l) ^^^ (b ^^^ f) = (c ^^^ b) ^^^ (l ^^^ f) := by
    apply Nat.eq_of_testBit_eq
    intro i
    simp only [Nat.testBit_xor]
    cases c.testBit i <;> cases l.testBit i <;> cases b.testBit i <;> cases f.testBit i <;> rfl
  rw [e1, Nat.and_xor_distrib_right, crcLoop_linear, xor_shiftRight_distrib]
  apply Nat.eq_of_testBit_eq
  intro i
  simp only [Nat.testBit_xor]
  cases (crcLoop 8 ((c ^^^ b) &&& 255)).testBit i <;>
    cases (crcLoop 8 ((l ^^^ f) &&& 255)).testBit i <;>
    cases (0xFF000000 : Nat).testBit i <;>
    cases (c >>> 8).testBit i <;>
    cases (l >>> 8).testBit i <;> rfl

theorem crc_fold_xor (xs : List Nat) : ∀ (es : List Nat), es.length = xs.length → ∀ c l : Nat,
    List.foldl crc32_update (c ^^^ l) (List.zipWith (· ^^^ ·) xs es) =
      List.foldl crc32_update c xs ^^^ List.foldl crcLin_update l es := by
  induction xs with
  | nil =>
    intro es hlen c l
    have : es = [] := List.length_eq_zero.mp hlen
    simp [this]
  | cons x xs ih =>
    intro es hlen c l
    cases es with
    | nil => simp at hlen
    | cons e es =>
      simp only [List.zipWith_cons_cons, List.foldl_cons]
      rw [crc_update_xor]
      exact ih es (by simpa using hlen) _ _

theorem crc32_zip_xor (xs es : List Nat) (hlen : es.length = xs.length) :
    crc32 (List.zipWith (· ^^^ ·) xs es) = crc32 xs ^^^ crcLin es := by
  unfold crc32 crcLin
  have h := crc_fold_xor xs es hlen 0 0
  simpa using h

theorem zip_xor_replicate_zero (xs : List Nat) :
    List.zipWith (· ^^^ ·) xs (List.replicate xs.length 0) = xs := by
  induction xs with
  | nil => rfl
  | cons x xs ih => simp [List.replicate_succ, ih]

theorem zip_xor_onehot (xs : List Nat) : ∀ (i v : Nat), i < xs.length →
    List.zipWith (· ^^^ ·) xs ((List.replicate xs.length 0).set i v) =
      xs.set i (xs.getD i 0 ^^^ v) := by
  induction xs with
  | nil => intro i v h; simp at h
  | cons x xs ih =>
    intro i v h
    cases i with
    | zero =>
      simp [List.replicate_succ, zip_xor_replicate_zero]
    | succ i =>
      have hi : i < xs.length := by simpa using h
      simp [List.replicate_succ, ih i v hi]

-- The linear part of the crc takes a nonzero value on every single-bit
-- error vector over a 20-byte buffer.
theorem crcLin_onehot_ne_zero : ∀ i < 20, ∀ b < 8, crcLin (oneHot20 i b) ≠ 0 := by
  decide

-- ===================================================================
-- Big-endian write/read roundtrips
-- ===================================================================

theorem and_255_id {x : Nat} (h : x < 256) : x &&& 255 = x := by
  have h2 : x < 2 ^ 8 := by omega
  have := Nat.and_pow_two_sub_one_of_lt_two_pow h2
  norm_num at this
  exact this

theorem read_write_be16 {v : Nat} (h : v < 2 ^ 16) :
    read_be16 ((v >>> 8) &&& 255) (v &&& 255) = v := by
  unfold read_be16
  have h8 : v >>> 8 < 256 := by
    rw [Nat.shiftRight_eq_div_pow]
    omega
  rw [and_255_id h8, Nat.or_comm]
  exact or_low_high v

theorem read_write_be32 {v : Nat} (h : v < 2 ^ 32) :
    read_be32 ((v >>> 24) &&& 255) ((v >>> 16) &&& 255) ((v >>> 8) &&& 255) (v &&& 255) = v := by
  unfold read_be32
  apply Nat.eq_of_testBit_eq
  intro i
  rw [show (255 : Nat) = 2 ^ 8 - 1 from rfl]
  simp only [Nat.testBit_or, Nat.testBit_shiftLeft, Nat.testBit_and, Nat.testBit_shiftRight,
    Nat.testBit_two_pow_sub_one]
  by_cases h8 : i < 8
  · have c24 : ¬(24 ≤ i) := by omega
    have c16 : ¬(16 ≤ i) := by omega
    have c8 : ¬(8 ≤ i) := by omega
    simp [c24, c16, c8, h8]
  · by_cases h16 : i < 16
    · have e : 8 + (i - 8) = i := by omega
      have c24 : ¬(24 ≤ i) := by omega
      have c16 : ¬(16 ≤ i) := by omega
      have c8 : 8 ≤ i := by omega
      have cl : i - 8 < 8 := by omega
      simp [c24, c16, c8, cl, e, h8]
    · by_cases h24 : i < 24
      · have e : 16 + (i - 16) = i := by omega
        have c24 : ¬(24 ≤ i) := by omega
        have c16 : 16 ≤ i := by omega
        have cl : i - 16 < 8 := by omega
        have ch : ¬(i - 8 < 8) := by omega
        simp [c24, c16, cl, e, h8, ch]
      · by_cases h32 : i < 32
        · have e : 24 + (i - 24) = i := by omega
          have c24 : 24 ≤ i := by omega
          have cl : i - 24 < 8 := by omega
          have ch16 : ¬(i - 16 < 8) := by omega
          have ch8 : ¬(i - 8 < 8) := by omega
          simp [c24, cl, e, h8, ch16, ch8]
        · have hv : v.testBit i = false := by
            apply Nat.testBit_lt_two_pow
            calc v < 2 ^ 32 := h
              _ ≤ 2 ^ i := Nat.pow_le_pow_right (by omega) (by omega)
          have ch24 : ¬(i - 24 < 8) := by omega
          have ch16 : ¬(i - 16 < 8) := by omega
          have ch8 : ¬(i - 8 < 8) := by omega
          simp [hv, ch24, ch16, ch8, h8]

-- One step of the read_be64 accumulation undoes one byte of the split.
theorem be64_step {x : Nat} (h : x < 2 ^ 64) :
    (((x >>> 8) <<< 8) % 2 ^ 64) ||| (x &&& 255) = x := by
  have h1 : (x >>> 8) <<< 8 ≤ x := by
    rw [Nat.shiftRight_eq_div_pow, Nat.shiftLeft_eq]
    exact Nat.div_mul_le_self x (2 ^ 8)
  rw [Nat.mod_eq_of_lt (lt_of_le_of_lt h1 h), Nat.or_comm]
  exact or_low_high x

theorem read_write_be64 {v : Nat} (h : v < 2 ^ 64) : read_be64 (write_be64 v) = v := by
  have hs : ∀ a b : Nat, v >>> a >>> b = v >>> (a + b) := by
    intro a b
    rw [Nat.shiftRight_add]
  have hlt : ∀ a : Nat, 8 ≤ a → v >>> a < 2 ^ 64 := by
    intro a ha
    rw [Nat.shiftRight_eq_div_pow]
    have : 2 ^ 8 ≤ 2 ^ a := Nat.pow_le_pow_right (by omega) ha
    have := Nat.div_le_self v (2 ^ a)
    omega
  unfold read_be64 write_be64
  simp only [List.foldl_cons, List.foldl_nil]
  rw [Nat.zero_shiftLeft, Nat.zero_mod, Nat.zero_or]
  have h56 : v >>> 56 &&& 255 = v >>> 56 := by
    apply and_255_id
    rw [Nat.shiftRight_eq_div_pow]
    omega
  rw [h56]
  rw [show v >>> 56 = v >>> 48 >>> 8 from (hs 48 8).symm, be64_step (hlt 48 (by omega))]
  rw [show v >>> 48 = v >>> 40 >>> 8 from (hs 40 8).symm, be64_step (hlt 40 (by omega))]
  rw [show v >>> 40 = v >>> 32 >>> 8 from (hs 32 8).symm, be64_step (hlt 32 (by omega))]
  rw [show v >>> 32 = v >>> 24 >>> 8 from (hs 24 8).symm, be64_step (hlt 24 (by omega))]
  rw [show v >>> 24 = v >>> 16 >>> 8 from (hs 16 8).symm, be64_step (hlt 16 (by omega))]
  rw [show v >>> 16 = v >>> 8 >>> 8 from (hs 8 8).symm, be64_step (hlt 8 (by omega))]
  exact be64_step h

-- ===================================================================
-- C10 and C2: what encode_header actually writes
-- ===================================================================

/-- Claim C10: encode_header writes the constant magic 0x48425331 and
version 0x0001 for every input header and ignores the header's own magic
and version fields: two headers agreeing on type, flags, length and
stream id (but possibly differing in magic and version) encode to
identical bytes, and every output starts with the encoded constant magic
and version. -/
theorem c10_encode_header_constant_magic_version :
    ∀ h1 h2 : FrameHeader, h1.type = h2.type → h1.flags = h2.flags →
      h1.length = h2.length → h1.stream_id = h2.stream_id →
      encode_header h1 = encode_header h2 ∧
      (encode_header h1).take 4 = write_be32 FrameHeaderMagic ∧
      ((encode_header h1).drop 4).take 2 = write_be16 FrameHeaderVersion := by
  intro h1 h2 ht hf hl hs
  refine ⟨?_, rfl, rfl⟩
  obtain ⟨m1, v1, t1, f1, l1, s1, c1⟩ := h1
  obtain ⟨m2, v2, t2, f2, l2, s2, c2⟩ := h2
  simp only at ht hf hl hs
  subst ht hf hl hs
  rfl

theorem c10_witness :
    encode_header ⟨0, 0, .Data, 1, 2, 3, 4⟩ = encode_header ⟨9, 9, .Data, 1, 2, 3, 4⟩ ∧
    (encode_header ⟨0, 0, .Data, 1, 2, 3, 4⟩).take 4 = write_be32 FrameHeaderMagic := by
  have h := c10_encode_header_constant_magic_version ⟨0, 0, .Data, 1, 2, 3, 4⟩
    ⟨9, 9, .Data, 1, 2, 3, 4⟩ rfl rfl rfl rfl
  exact ⟨h.1, h.2.1⟩

/-- Claim C2 (counterexample): the header_crc written by encode_header is
the value of the crc32 function of frame.cpp, and on the 20 header bytes
of a concrete frame (type Data, flags 0, length 5, stream id 7) that
value differs from the standard reflected CRC-32 (polynomial 0xEDB88320,
initial value 0xFFFFFFFF, final XOR 0xFFFFFFFF) of the same bytes: the
claim that header_crc equals the standard CRC-32 is false. -/
theorem c2_counterexample_header_crc_not_standard :
    read_be32 (byteAt (encode_header ⟨FrameHeaderMagic, FrameHeaderVersion, .Data, 0, 5, 7, 0⟩) 20)
        (byteAt (encode_header ⟨FrameHeaderMagic, FrameHeaderVersion, .Data, 0, 5, 7, 0⟩) 21)
        (byteAt (encode_header ⟨FrameHeaderMagic, FrameHeaderVersion, .Data, 0, 5, 7, 0⟩) 22)
        (byteAt (encode_header ⟨FrameHeaderMagic, FrameHeaderVersion, .Data, 0, 5, 7, 0⟩) 23) =
      crc32 ((encode_header ⟨FrameHeaderMagic, FrameHeaderVersion, .Data, 0, 5, 7, 0⟩).take 20) ∧
    crc32 ((encode_header ⟨FrameHeaderMagic, FrameHeaderVersion, .Data, 0, 5, 7, 0⟩).take 20) ≠
      crc32_reference ((encode_header ⟨FrameHeaderMagic, FrameHeaderVersion, .Data, 0, 5, 7, 0⟩).take 20) := by
  constructor
  · decide
  · decide

/-- Claim C2 (amended): for every frame header, the last four bytes
written by encode_header are the big-endian encoding of crc32 — the
table-driven checksum implemented in frame.cpp (table entries are the
standard reflected-0xEDB88320 entries XORed with 0xFF000000, initial
value 0, no final XOR) — applied to the header bytes [0..20); that
function is not the standard CRC-32 (see the counterexample). -/
theorem c2_amended_header_crc_is_crc32 :
    ∀ h : FrameHeader,
      (encode_header h).drop 20 = write_be32 (crc32 ((encode_header h).take 20)) ∧
      (encode_header h).take 20 = encode_header_body h := by
  intro h
  exact ⟨rfl, rfl⟩

-- ===================================================================
-- C4: header roundtrip and single-bit corruption detection
-- ===================================================================

theorem frameTypeOfNat_toNat (t : FrameType) : frameTypeOfNat (frameTypeToNat t) = some t := by
  cases t <;> rfl


theorem decode_encode_header (h : FrameHeader) (hm : h.magic = FrameHeaderMagic)
    (hv : h.version = FrameHeaderVersion) (hl : h.length < 2 ^ 32)
    (hs : h.stream_id < 2 ^ 64) (hc : h.header_crc = crc32 (encode_header_body h)) :
    decode_header (encode_header h) = .ok h := by
  have emagic : read_be32 (byteAt (encode_header h) 0) (byteAt (encode_header h) 1)
      (byteAt (encode_header h) 2) (byteAt (encode_header h) 3) = FrameHeaderMagic := by
    rw [show byteAt (encode_header h) 0 = 72 from rfl, show byteAt (encode_header h) 1 = 66 from rfl,
      show byteAt (encode_header h) 2 = 83 from rfl, show byteAt (encode_header h) 3 = 49 from rfl]
    decide
  have eversion : read_be16 (byteAt (encode_header h) 4) (byteAt (encode_header h) 5) =
      FrameHeaderVersion := by
    rw [show byteAt (encode_header h) 4 = 0 from rfl, show byteAt (encode_header h) 5 = 1 from rfl]
    decide
  have etype : byteAt (encode_header h) 6 = frameTypeToNat h.type := rfl
  have eflags : byteAt (encode_header h) 7 = h.flags := rfl
  have elen : read_be32 (byteAt (encode_header h) 8) (byteAt (encode_header h) 9)
      (byteAt (encode_header h) 10) (byteAt (encode_header h) 11) = h.length := by
    rw [show byteAt (encode_header h) 8 = (h.length >>> 24) &&& 255 from rfl,
      show byteAt (encode_header h) 9 = (h.length >>> 16) &&& 255 from rfl,
      show byteAt (encode_header h) 10 = (h.length >>> 8) &&& 255 from rfl,
      show byteAt (encode_header h) 11 = h.length &&& 255 from rfl]
    exact read_write_be32 hl
  have estream : read_be64 (((encode_header h).drop 12).take 8) = h.stream_id := by
    rw [show ((encode_header h).drop 12).take 8 = write_be64 h.stream_id from rfl]
    exact read_write_be64 hs
  have ecrc : read_be32 (byteAt (encode_header h) 20) (byteAt (encode_header h) 21)
      (byteAt (encode_header h) 22) (byteAt (encode_header h) 23) =
      crc32 (encode_header_body h) := by
    rw [show byteAt (encode_header h) 20 = (crc32 (encode_header_body h) >>> 24) &&& 255 from rfl,
      show byteAt (encode_header h) 21 = (crc32 (encode_header_body h) >>> 16) &&& 255 from rfl,
      show byteAt (encode_header h) 22 = (crc32 (encode_header_body h) >>> 8) &&& 255 from rfl,
      show byteAt (encode_header h) 23 = crc32 (encode_header_body h) &&& 255 from rfl]
    exact read_write_be32 (crc32_lt _)
  have etake : (encode_header h).take 20 = encode_header_body h := rfl
  unfold decode_header
  simp only [emagic, eversion, etype, eflags, elen, estream, ecrc, etake, frameTypeOfNat_toNat]
  rw [if_neg (by omega : ¬FrameHeaderMagic ≠ FrameHeaderMagic)]
  rw [if_neg (by omega : ¬FrameHeaderVersion ≠ FrameHeaderVersion)]
  rw [if_neg (by omega : ¬crc32 (encode_header_body h) ≠ crc32 (encode_header_body h))]
  rw [← hm, ← hv, ← hc]

theorem crc32_set_ne (xs : List Nat) (i b : Nat) (hlen : xs.length = 20)
    (hi : i < 20) (hb : b < 8) :
    crc32 (xs.set i (xs.getD i 0 ^^^ (1 <<< b))) ≠ crc32 xs := by
  have hz := zip_xor_onehot xs i (1 <<< b) (by omega)
  rw [hlen] at hz
  rw [show (List.replicate 20 0).set i (1 <<< b) = oneHot20 i b from rfl] at hz
  have hnz : crcLin (oneHot20 i b) ≠ 0 := crcLin_onehot_ne_zero i hi b hb
  have hzip := crc32_zip_xor xs (oneHot20 i b) (by simp [oneHot20, hlen])
  rw [hz] at hzip
  rw [hzip]
  intro heq
  apply hnz
  calc crcLin (oneHot20 i b)
      = crc32 xs ^^^ (crc32 xs ^^^ crcLin (oneHot20 i b)) := by
        rw [← Nat.xor_assoc, Nat.xor_self, Nat.zero_xor]
    _ = crc32 xs ^^^ crc32 xs := by rw [heq]
    _ = 0 := Nat.xor_self _

-- If decode_header succeeds, the recomputed crc32 over bytes [0..20)
-- matched the stored big-endian value at bytes [20..24).
theorem decode_header_ok_crc (buffer : List Nat) (hdr : FrameHeader)
    (hok : decode_header buffer = .ok hdr) :
    crc32 (buffer.take 20) =
      read_be32 (byteAt buffer 20) (byteAt buffer 21) (byteAt buffer 22) (byteAt buffer 23) := by
  simp only [decode_header] at hok
  split at hok
  · simp at hok
  · split at hok
    · simp at hok
    · split at hok
      · simp at hok
      · split at hok
        · simp at hok
        · rename_i hcond
          exact not_ne_iff.mp hcond

theorem decode_flip_error (h : FrameHeader) (i bit : Nat) (hi : i < 20) (hb : bit < 8) :
    ∃ e, decode_header (flipBit (encode_header h) i bit) = .error e := by
  have hBlen : (encode_header_body h).length = 20 := rfl
  have hflip : flipBit (encode_header h) i bit =
      (encode_header_body h).set i ((encode_header_body h).getD i 0 ^^^ (1 <<< bit)) ++
        write_be32 (crc32 (encode_header_body h)) := by
    unfold flipBit encode_header
    rw [List.getD_append _ _ _ _ (by omega), List.set_append_left _ _ (by omega)]
  set B2 := (encode_header_body h).set i ((encode_header_body h).getD i 0 ^^^ (1 <<< bit)) with hB2
  have hlen2 : B2.length = 20 := by
    rw [hB2, List.length_set, hBlen]
  have htake : (B2 ++ write_be32 (crc32 (encode_header_body h))).take 20 = B2 :=
    List.take_left' hlen2
  have hcrcstored : read_be32 (byteAt (B2 ++ write_be32 (crc32 (encode_header_body h))) 20)
      (byteAt (B2 ++ write_be32 (crc32 (encode_header_body h))) 21)
      (byteAt (B2 ++ write_be32 (crc32 (encode_header_body h))) 22)
      (byteAt (B2 ++ write_be32 (crc32 (encode_header_body h))) 23) =
      crc32 (encode_header_body h) := by
    unfold byteAt
    rw [List.getD_append_right _ _ _ _ (by omega), List.getD_append_right _ _ _ _ (by omega),
      List.getD_append_right _ _ _ _ (by omega), List.getD_append_right _ _ _ _ (by omega)]
    rw [hlen2]
    norm_num
    exact read_write_be32 (crc32_lt _)
  rw [hflip]
  cases hres : decode_header (B2 ++ write_be32 (crc32 (encode_header_body h))) with
  | error e => exact ⟨e, rfl⟩
  | ok hdr =>
    exfalso
    have hcrc := decode_header_ok_crc _ _ hres
    rw [htake, hcrcstored, hB2] at hcrc
    exact crc32_set_ne _ i bit hBlen hi hb hcrc

/-- Claim C4 (counterexample): the claim promises
decode_header(encode_header(H)) = H for every header whose fields are in
range and whose frame type is known, and that a single flipped bit in
the first 20 bytes is detected as a CRC mismatch.  Both parts fail as
stated: the in-range header with magic 0 (known type Data) does not
round-trip, because encode_header replaces magic, version and header_crc;
and flipping bit 0 of byte 0 is rejected as an invalid magic, not as a
CRC mismatch. -/
theorem c4_counterexample_roundtrip_as_stated :
    decode_header (encode_header ⟨0, 1, .Data, 0, 0, 0, 0⟩) ≠ .ok ⟨0, 1, .Data, 0, 0, 0, 0⟩ ∧
    decode_header
        (flipBit (encode_header ⟨FrameHeaderMagic, FrameHeaderVersion, .Data, 0, 0, 0, 0⟩) 0 0) =
      .error ⟨.TransportError, "invalid frame magic"⟩ := by
  constructor
  · decide
  · decide

/-- Claim C4 (amended): for every header whose magic, version and
header_crc fields agree with what encode_header writes (magic 0x48425331,
version 1, header_crc equal to the crc32 of the 20 header bytes) and
whose flags, length and stream id are within their field widths,
decode_header(encode_header(H)) = H; and for every header and every
single-bit flip within the first 20 encoded bytes, decode_header fails
(with a CRC mismatch when magic, version and type still parse, and with
the corresponding earlier TransportError otherwise). -/
theorem c4_amended_roundtrip_and_bitflip_detected :
    (∀ h : FrameHeader, h.magic = FrameHeaderMagic → h.version = FrameHeaderVersion →
      h.flags < 256 → h.length < 2 ^ 32 → h.stream_id < 2 ^ 64 →
      h.header_crc = crc32 (encode_header_body h) →
      decode_header (encode_header h) = .ok h) ∧
    (∀ (h : FrameHeader) (i bit : Nat), i < 20 → bit < 8 →
      ∃ e, decode_header (flipBit (encode_header h) i bit) = .error e) := by
  constructor
  · intro h hm hv _ hl hs hc
    exact decode_encode_header h hm hv hl hs hc
  · intro h i bit hi hb
    exact decode_flip_error h i bit hi hb

theorem c4_witness :
    decode_header (encode_header ⟨FrameHeaderMagic, FrameHeaderVersion, .Settings, 3, 10, 99,
        crc32 (encode_header_body ⟨FrameHeaderMagic, FrameHeaderVersion, .Settings, 3, 10, 99, 0⟩)⟩) =
      .ok ⟨FrameHeaderMagic, FrameHeaderVersion, .Settings, 3, 10, 99,
        crc32 (encode_header_body ⟨FrameHeaderMagic, FrameHeaderVersion, .Settings, 3, 10, 99, 0⟩)⟩ ∧
    (∃ e, decode_header (flipBit (encode_header ⟨FrameHeaderMagic, FrameHeaderVersion,
        .Settings, 3, 10, 99, 0⟩) 7 0) = .error e) := by
  constructor
  · exact c4_amended_roundtrip_and_bitflip_detected.1 _ rfl rfl (by decide) (by decide) (by decide) rfl
  · exact c4_amended_roundtrip_and_bitflip_detected.2 _ 7 0 (by decide) (by decide)

-- ===================================================================
-- C6: unregistered interface id answers NotFound
-- ===================================================================

/-- Claim C6: when a server-side Data frame carries a well-formed RPC
request whose interface_id has no registered handler, handle_server_data
invokes no handler and replies on the same stream id with a Data frame
carrying the EndStream flag and the response payload
varint(Hb1) | status byte NotFound (= 3) | empty body, i.e. the two
bytes [0, 3]. -/
theorem c6_unregistered_interface_replies_not_found :
    ∀ (registered : List Nat) (stream_id : Nat) (payload : List Nat) (parsed : ParsedRequest),
      parse_rpc_request payload = .ok parsed →
      find_handler_registered registered parsed.request.interface_id = false →
      handle_server_data registered stream_id payload =
        .reply ⟨.Data, FrameFlagEndStream, stream_id, [0, 3]⟩ ∧
      build_response_payload .NotFound [] = [0, 3] ∧
      statusToNat .NotFound = 3 := by
  intro registered stream_id payload parsed hparse hfind
  refine ⟨?_, rfl, rfl⟩
  unfold handle_server_data
  rw [hparse]
  simp only [hfind, Bool.false_eq_true, if_false]
  rfl

theorem c6_witness :
    parse_rpc_request [1, 2, 3, 0, 7] =
      .ok ⟨⟨1, 2, 3, EncodingHb1, []⟩, 7⟩ ∧
    find_handler_registered [] 2 = false ∧
    handle_server_data [] 42 [1, 2, 3, 0, 7] = .reply ⟨.Data, FrameFlagEndStream, 42, [0, 3]⟩ := by
  refine ⟨by decide, by decide, ?_⟩
  exact (c6_unregistered_interface_replies_not_found [] 42 [1, 2, 3, 0, 7]
    ⟨⟨1, 2, 3, EncodingHb1, []⟩, 7⟩ (by decide) (by decide)).1

-- ===================================================================
-- C7: import resolution base directory
-- ===================================================================

/-- Claim C7 (code evaluated at the failing input): detail::parse_imports
claims (in its own comment and in the spec) to resolve every quoted
import-path against the root file's directory, but the recursion passes
each imported file's path as the new base, so transitive imports resolve
against the importing file's directory.  Filesystem: a/root imports
"sub/x"; a/sub/x imports "y"; only a/sub/y exists, a/y does not.  Under
the claimed semantics resolution of "y" relative to the root directory a/
would fail (a/y is absent); the code instead reads a/sub/y and succeeds.
The already-parsed check (silent skip, no recursion) is also exercised:
parsing terminates with each file parsed once. -/
theorem c7_imports_resolved_against_importing_file :
    parse_program_paths
        [(["a", "root"], [["sub", "x"]]), (["a", "sub", "x"], [["y"]]), (["a", "sub", "y"], [])]
        ["a", "root"] =
      .ok [["a", "root"], ["a", "sub", "x"], ["a", "sub", "y"]] ∧
    fs_lookup
        [(["a", "root"], [["sub", "x"]]), (["a", "sub", "x"], [["y"]]), (["a", "sub", "y"], [])]
        ["a", "y"] = none := by
  constructor
  · rfl
  · rfl

-- ===================================================================
-- C8: dispatcher stream ids and response handlers
-- ===================================================================

theorem opens_state_next_id (R : Type) :
    ∀ n, n + 1 < 2 ^ 64 → (opens_state R n).next_id = n + 1 := by
  intro n
  induction n with
  | zero => intro _; rfl
  | succ n ih =>
    intro hlt
    show ((opens_state R n).next_id + 1) % 2 ^ 64 = n + 2
    rw [ih (by omega)]
    omega

/-- Claim C8: within one dispatcher, successive open_stream calls return
strictly increasing ids starting at 1 (for any realizable number of
calls, i.e. as long as the uint64 counter does not wrap), so no id
recurs; and set_response_handler followed by take_response_handler for
the same stream id yields the stored continuation exactly once and
removes it, a second take for that id yielding nothing. -/
theorem c8_dispatcher_ids_monotone_and_handlers_once :
    (∀ (R : Type) (i j : Nat), i < j → j + 1 < 2 ^ 64 → open_id R i < open_id R j) ∧
    (∀ R : Type, open_id R 0 = 1) ∧
    (∀ (R : Type) (s : DispatcherState R) (id : Nat) (handler : R),
      (take_response_handler (set_response_handler s id handler) id).1 = some handler ∧
      ((take_response_handler (set_response_handler s id handler) id).2).handlers id = none ∧
      (take_response_handler
        ((take_response_handler (set_response_handler s id handler) id).2) id).1 = none) := by
  refine ⟨?_, fun R => rfl, ?_⟩
  · intro R i j hij hj
    show (open_stream (opens_state R i)).1 < (open_stream (opens_state R j)).1
    show (opens_state R i).next_id < (opens_state R j).next_id
    rw [opens_state_next_id R i (by omega), opens_state_next_id R j hj]
    omega
  · intro R s id handler
    simp [set_response_handler, take_response_handler]

theorem c8_witness :
    open_id Nat 0 < open_id Nat 1 ∧ open_id Nat 0 = 1 ∧
    (take_response_handler (set_response_handler (dispatcher_init Nat) 5 42) 5).1 = some 42 ∧
    (take_response_handler
      ((take_response_handler (set_response_handler (dispatcher_init Nat) 5 42) 5).2) 5).1 =
      none := by
  refine ⟨c8_dispatcher_ids_monotone_and_handlers_once.1 Nat 0 1 (by omega) (by decide),
    c8_dispatcher_ids_monotone_and_handlers_once.2.1 Nat,
    (c8_dispatcher_ids_monotone_and_handlers_once.2.2 Nat (dispatcher_init Nat) 5 42).1,
    (c8_dispatcher_ids_monotone_and_handlers_once.2.2 Nat (dispatcher_init Nat) 5 42).2.2⟩

-- ===================================================================
-- C9: id gaps produce notes, not errors
-- ===================================================================

theorem check_id_bounds_ok {id : Nat} (h1 : 1 ≤ id) (h2 : id ≤ kMaxId)
    (kind owner : String) : check_id_bounds id kind owner = [] := by
  unfold check_id_bounds
  rw [if_neg (by omega), if_neg (by omega)]

theorem check_ids_pass_ok (kind owner : String) :
    ∀ (ids seen : List Nat), (∀ id ∈ ids, 1 ≤ id ∧ id ≤ kMaxId) → ids.Nodup →
      (∀ id ∈ ids, id ∉ seen) → check_ids_pass kind owner ids seen = [] := by
  intro ids
  induction ids with
  | nil => intro seen _ _ _; rfl
  | cons id rest ih =>
    intro seen hvalid hnodup hseen
    show check_id_bounds id kind owner ++ _ ++ check_ids_pass kind owner rest (seen ++ [id]) = []
    rw [check_id_bounds_ok (hvalid id (by simp)).1 (hvalid id (by simp)).2 kind owner]
    rw [if_neg (by simpa using hseen id (by simp))]
    rw [ih (seen ++ [id]) (fun x hx => hvalid x (by simp [hx])) (List.Nodup.of_cons hnodup)
      (fun x hx => by
        simp only [List.mem_append, List.mem_singleton]
        push_neg
        refine ⟨hseen x (by simp [hx]), ?_⟩
        intro hxid
        subst hxid
        exact absurd hx (List.Nodup.not_mem hnodup))]
    rfl

theorem gap_notes_shape (kind owner : String) :
    ∀ l, ∀ d ∈ gap_notes kind owner l, d.severity = .Note ∧
      ∃ p c, p + 1 < c ∧ d.message = gap_message p c kind owner := by
  intro l
  induction l with
  | nil => intro d hd; simp [gap_notes] at hd
  | cons a rest ih =>
    cases rest with
    | nil => intro d hd; simp [gap_notes] at hd
    | cons b rest2 =>
      intro d hd
      unfold gap_notes at hd
      rw [List.mem_append] at hd
      rcases hd with hd | hd
      · by_cases hab : a + 1 < b
        · rw [if_pos hab] at hd
          simp only [List.mem_singleton] at hd
          subst hd
          exact ⟨rfl, a, b, hab, rfl⟩
        · rw [if_neg hab] at hd
          simp at hd
      · exact ih d hd

/-- Claim C9: for a container whose ids are valid (positive and at most
2^31 - 1) and unique, check_id_collection emits no Error at all — its
entire output is the gap scan over the sorted ids, and every emitted
diagnostic is a Note whose message is the gap message "Gap detected
between p and c ..." for some adjacent sorted pair p < c with a hole
between them.  Gaps alone therefore never fail validation. -/
theorem c9_id_gaps_yield_notes_never_errors :
    ∀ (ids : List Nat) (owner kind : String),
      (∀ id ∈ ids, 1 ≤ id ∧ id ≤ kMaxId) → ids.Nodup →
      check_id_collection ids owner kind = gap_notes kind owner (sort_ids ids) ∧
      ∀ d ∈ check_id_collection ids owner kind, d.severity = .Note ∧
        ∃ p c, p + 1 < c ∧ d.message = gap_message p c kind owner := by
  intro ids owner kind hvalid hnodup
  have hpass : check_ids_pass kind owner ids [] = [] :=
    check_ids_pass_ok kind owner ids [] hvalid hnodup (by simp)
  have heq : check_id_collection ids owner kind = gap_notes kind owner (sort_ids ids) := by
    unfold check_id_collection
    rw [hpass]
    rfl
  refine ⟨heq, ?_⟩
  rw [heq]
  exact gap_notes_shape kind owner (sort_ids ids)

theorem c9_witness :
    (∀ d ∈ check_id_collection [1, 3] "struct F" "field", d.severity = .Note) ∧
    check_id_collection [1, 3] "struct F" "field" =
      [⟨.Note, "Gap detected between 1 and 3 for field ids in struct F"⟩] := by
  constructor
  · intro d hd
    exact ((c9_id_gaps_yield_notes_never_errors [1, 3] "struct F" "field"
      (by decide) (by decide)).2 d hd).1
  · rfl

-- ===================================================================
-- Varint roundtrip lemmas
-- ===================================================================

theorem encode_varint_go_small {v : Nat} (h : ¬128 ≤ v) (k : Nat) :
    encode_varint_go k v = [v] := by
  cases k with
  | zero => rfl
  | succ k => simp [encode_varint_go, h]

theorem encode_varint_go_ne_nil (k v : Nat) : encode_varint_go k v ≠ [] := by
  cases k with
  | zero => simp [encode_varint_go]
  | succ k =>
    by_cases h : 128 ≤ v <;> simp [encode_varint_go, h]

theorem shiftLeft_le_shiftLeft {a b : Nat} (h : a ≤ b) (s : Nat) : a <<< s ≤ b <<< s := by
  rw [Nat.shiftLeft_eq, Nat.shiftLeft_eq]
  exact Nat.mul_le_mul_right _ h

-- Reading back an encoded varint: the reader loop accumulates exactly
-- the encoded value at the given shift and stops at the right byte.
theorem read_varint_loop_enc (k : Nat) : ∀ (v res shift : Nat) (rest : List Nat),
    v < 2 ^ (7 * k + 7) → v <<< shift < 2 ^ 64 →
    read_varint_loop (encode_varint_go k v ++ rest) (k + 1) res shift =
      .ok (res ||| (v <<< shift), rest) := by
  induction k with
  | zero =>
    intro v res shift rest hv hsh
    have hv128 : v < 128 := by
      have : (2 : Nat) ^ (7 * 0 + 7) = 128 := by norm_num
      omega
    rw [encode_varint_go_small (by omega) 0]
    show read_varint_loop (v :: rest) 1 res shift = _
    unfold read_varint_loop
    rw [and_127_eq_mod, Nat.mod_eq_of_lt hv128, Nat.mod_eq_of_lt hsh,
      if_pos (and_128_of_lt hv128)]
  | succ k ih =>
    intro v res shift rest hv hsh
    by_cases h128 : 128 ≤ v
    · rw [show encode_varint_go (k + 1) v = ((v ||| 128) &&& 255) :: encode_varint_go k (v >>> 7)
        from by simp [encode_varint_go, h128]]
      show read_varint_loop (((v ||| 128) &&& 255) :: (encode_varint_go k (v >>> 7) ++ rest))
        (k + 2) res shift = _
      unfold read_varint_loop
      rw [msb_byte_and_127, if_neg (by rw [msb_byte_and_128]; omega)]
      have hand : ((v &&& 127) <<< shift) < 2 ^ 64 :=
        lt_of_le_of_lt (shiftLeft_le_shiftLeft Nat.and_le_left shift) hsh
      rw [Nat.mod_eq_of_lt hand]
      have hv7 : v >>> 7 < 2 ^ (7 * k + 7) := by
        rw [Nat.shiftRight_eq_div_pow]
        have : (2 : Nat) ^ (7 * (k + 1) + 7) = 2 ^ (7 * k + 7) * 2 ^ 7 := by ring
        rw [this] at hv
        omega
      have hsh7 : (v >>> 7) <<< (shift + 7) ≤ v <<< shift := by
        rw [Nat.shiftRight_eq_div_pow, Nat.shiftLeft_eq, Nat.shiftLeft_eq, pow_add]
        calc v / 2 ^ 7 * (2 ^ shift * 2 ^ 7) = v / 2 ^ 7 * 2 ^ 7 * 2 ^ shift := by ring
          _ ≤ v * 2 ^ shift := Nat.mul_le_mul_right _ (Nat.div_mul_le_self v (2 ^ 7))
      rw [ih (v >>> 7) (res ||| ((v &&& 127) <<< shift)) (shift + 7) rest hv7
        (lt_of_le_of_lt hsh7 hsh)]
      rw [Nat.or_assoc]
      rw [show (127 : Nat) = 2 ^ 7 - 1 from rfl, chunk_or]
    · rw [encode_varint_go_small h128 (k + 1)]
      have hv128 : v < 128 := by omega
      show read_varint_loop (v :: rest) (k + 2) res shift = _
      unfold read_varint_loop
      rw [and_127_eq_mod, Nat.mod_eq_of_lt hv128, Nat.mod_eq_of_lt hsh,
        if_pos (and_128_of_lt hv128)]

-- Fuel irrelevance for the encoder: one unit of fuel per 7 bits of the
-- value suffices, and extra fuel does not change the output.
theorem encode_varint_go_fuel (k : Nat) : ∀ v, v < 2 ^ (7 * k + 7) →
    encode_varint_go (k + 1) v = encode_varint_go k v := by
  induction k with
  | zero =>
    intro v hv
    have : v < 128 := by
      have : (2 : Nat) ^ (7 * 0 + 7) = 128 := by norm_num
      omega
    rw [encode_varint_go_small (by omega) 1, encode_varint_go_small (by omega) 0]
  | succ k ih =>
    intro v hv
    by_cases h128 : 128 ≤ v
    · have hv7 : v >>> 7 < 2 ^ (7 * k + 7) := by
        rw [Nat.shiftRight_eq_div_pow]
        have : (2 : Nat) ^ (7 * (k + 1) + 7) = 2 ^ (7 * k + 7) * 2 ^ 7 := by ring
        rw [this] at hv
        omega
      show (if 128 ≤ v then ((v ||| 128) &&& 255) :: encode_varint_go (k + 1) (v >>> 7) else [v]) = _
      rw [if_pos h128, ih (v >>> 7) hv7]
      simp [encode_varint_go, h128]
    · rw [encode_varint_go_small h128 (k + 2), encode_varint_go_small h128 (k + 1)]

theorem encode_varint_u64_eq_go9 {v : Nat} (h : v < 2 ^ 64) :
    encode_varint_u64 v = encode_varint_go 9 v := by
  unfold encode_varint_u64
  exact encode_varint_go_fuel 9 v (by omega)

theorem read_varint_src_enc {v : Nat} (h : v < 2 ^ 64) (rest : List Nat) :
    read_varint_src (encode_varint_u64 v ++ rest) = .ok (v, rest) := by
  unfold read_varint_src
  rw [encode_varint_u64_eq_go9 h]
  have := read_varint_loop_enc 9 v 0 0 rest (by omega) (by simpa using h)
  simpa using this

-- The scratch-buffer scan returns exactly the encoded bytes.
theorem scan_varint_bytes_enc (k : Nat) : ∀ (v : Nat) (rest : List Nat), v < 2 ^ (7 * k + 7) →
    scan_varint_bytes (encode_varint_go k v ++ rest) (k + 1) =
      .ok (encode_varint_go k v, rest) := by
  induction k with
  | zero =>
    intro v rest hv
    have hv128 : v < 128 := by
      have : (2 : Nat) ^ (7 * 0 + 7) = 128 := by norm_num
      omega
    rw [encode_varint_go_small (by omega) 0]
    show scan_varint_bytes (v :: rest) 1 = _
    unfold scan_varint_bytes
    rw [if_pos (and_128_of_lt hv128)]
  | succ k ih =>
    intro v rest hv
    by_cases h128 : 128 ≤ v
    · have hv7 : v >>> 7 < 2 ^ (7 * k + 7) := by
        rw [Nat.shiftRight_eq_div_pow]
        have : (2 : Nat) ^ (7 * (k + 1) + 7) = 2 ^ (7 * k + 7) * 2 ^ 7 := by ring
        rw [this] at hv
        omega
      rw [show encode_varint_go (k + 1) v = ((v ||| 128) &&& 255) :: encode_varint_go k (v >>> 7)
        from by simp [encode_varint_go, h128]]
      show scan_varint_bytes (((v ||| 128) &&& 255) :: (encode_varint_go k (v >>> 7) ++ rest))
        (k + 2) = _
      unfold scan_varint_bytes
      rw [if_neg (by rw [msb_byte_and_128]; omega), ih (v >>> 7) rest hv7]
    · rw [encode_varint_go_small h128 (k + 1)]
      have hv128 : v < 128 := by omega
      show scan_varint_bytes (v :: rest) (k + 2) = _
      unfold scan_varint_bytes
      rw [if_pos (and_128_of_lt hv128)]

theorem scan_varint_bytes_u64 {v : Nat} (h : v < 2 ^ 64) (rest : List Nat) :
    scan_varint_bytes (encode_varint_u64 v ++ rest) 10 = .ok (encode_varint_u64 v, rest) := by
  rw [encode_varint_u64_eq_go9 h]
  exact scan_varint_bytes_enc 9 v rest (by omega)

-- The span decoder recovers the encoded value.
theorem decode_varint_go_enc (k : Nat) : ∀ (v res shift : Nat),
    v < 2 ^ (7 * k + 7) → v <<< shift < 2 ^ 64 →
    decode_varint_go (encode_varint_go k v) res shift = .ok (res ||| (v <<< shift)) := by
  induction k with
  | zero =>
    intro v res shift hv hsh
    have hv128 : v < 128 := by
      have : (2 : Nat) ^ (7 * 0 + 7) = 128 := by norm_num
      omega
    rw [encode_varint_go_small (by omega) 0]
    show decode_varint_go [v] res shift = _
    unfold decode_varint_go
    rw [and_127_eq_mod, Nat.mod_eq_of_lt hv128, Nat.mod_eq_of_lt hsh,
      if_pos (and_128_of_lt hv128)]
  | succ k ih =>
    intro v res shift hv hsh
    by_cases h128 : 128 ≤ v
    · rw [show encode_varint_go (k + 1) v = ((v ||| 128) &&& 255) :: encode_varint_go k (v >>> 7)
        from by simp [encode_varint_go, h128]]
      show decode_varint_go (((v ||| 128) &&& 255) :: encode_varint_go k (v >>> 7)) res shift = _
      unfold decode_varint_go
      rw [msb_byte_and_127, if_neg (by rw [msb_byte_and_128]; omega)]
      have hand : ((v &&& 127) <<< shift) < 2 ^ 64 :=
        lt_of_le_of_lt (shiftLeft_le_shiftLeft Nat.and_le_left shift) hsh
      rw [Nat.mod_eq_of_lt hand]
      have hv7 : v >>> 7 < 2 ^ (7 * k + 7) := by
        rw [Nat.shiftRight_eq_div_pow]
        have : (2 : Nat) ^ (7 * (k + 1) + 7) = 2 ^ (7 * k + 7) * 2 ^ 7 := by ring
        rw [this] at hv
        omega
      have hsh7 : (v >>> 7) <<< (shift + 7) ≤ v <<< shift := by
        rw [Nat.shiftRight_eq_div_pow, Nat.shiftLeft_eq, Nat.shiftLeft_eq, pow_add]
        calc v / 2 ^ 7 * (2 ^ shift * 2 ^ 7) = v / 2 ^ 7 * 2 ^ 7 * 2 ^ shift := by ring
          _ ≤ v * 2 ^ shift := Nat.mul_le_mul_right _ (Nat.div_mul_le_self v (2 ^ 7))
      rw [ih (v >>> 7) (res ||| ((v &&& 127) <<< shift)) (shift + 7) hv7
        (lt_of_le_of_lt hsh7 hsh)]
      rw [Nat.or_assoc]
      rw [show (127 : Nat) = 2 ^ 7 - 1 from rfl, chunk_or]
    · rw [encode_varint_go_small h128 (k + 1)]
      have hv128 : v < 128 := by omega
      show decode_varint_go [v] res shift = _
      unfold decode_varint_go
      rw [and_127_eq_mod, Nat.mod_eq_of_lt hv128, Nat.mod_eq_of_lt hsh,
        if_pos (and_128_of_lt hv128)]

theorem hb1_decode_varint_enc {v : Nat} (h : v < 2 ^ 64) :
    hb1_decode_varint (encode_varint_u64 v) = .ok v := by
  unfold hb1_decode_varint
  rw [encode_varint_u64_eq_go9 h]
  have := decode_varint_go_enc 9 v 0 0 (by omega) (by simpa using h)
  simpa using this

-- ===================================================================
-- ZigZag roundtrip
-- ===================================================================

theorem and_one_eq_mod (z : Nat) : z &&& 1 = z % 2 := by
  have h : (1 : Nat) = 2 ^ 1 - 1 := rfl
  rw [h, Nat.and_pow_two_sub_one_eq_mod]

theorem zigzag_value_lt (v : Int) :
    ((toU64 v <<< 1) % 2 ^ 64) ^^^ (if v < 0 then 2 ^ 64 - 1 else 0) < 2 ^ 64 := by
  apply Nat.xor_lt_two_pow (Nat.mod_lt _ (by positivity))
  split <;> omega

theorem zigzag_roundtrip (v : Int) (h1 : -(2 ^ 63) ≤ v) (h2 : v < 2 ^ 63) :
    hb1_decode_zigzag
      (encode_varint_u64 (((toU64 v <<< 1) % 2 ^ 64) ^^^ (if v < 0 then 2 ^ 64 - 1 else 0))) =
      .ok v := by
  unfold hb1_decode_zigzag
  rcases le_or_lt 0 v with hv | hv
  · have htu : toU64 v = v.toNat := by
      unfold toU64
      rw [Int.emod_eq_of_lt hv (by omega)]
    have hlt : v.toNat < 2 ^ 63 := by omega
    have hz : ((toU64 v <<< 1) % 2 ^ 64) ^^^ (if v < 0 then 2 ^ 64 - 1 else 0) = 2 * v.toNat := by
      rw [htu, if_neg (by omega), Nat.xor_zero, Nat.shiftLeft_eq, pow_one,
        Nat.mod_eq_of_lt (by omega)]
      omega
    rw [hz, hb1_decode_varint_enc (by omega)]
    show Except.ok (fromU64 ((2 * v.toNat) >>> 1 ^^^
      if 2 * v.toNat &&& 1 = 1 then 2 ^ 64 - 1 else 0)) = Except.ok v
    have hodd : 2 * v.toNat &&& 1 = 0 := by
      rw [and_one_eq_mod]
      omega
    rw [hodd, if_neg (by omega), Nat.xor_zero, Nat.shiftRight_eq_div_pow, pow_one]
    have hdiv : 2 * v.toNat / 2 = v.toNat := by omega
    rw [hdiv]
    unfold fromU64
    rw [if_pos hlt]
    congr 1
    omega
  · have hmod : v % (2 ^ 64 : Int) = v + 2 ^ 64 := by omega
    have htu : toU64 v = (v + 2 ^ 64).toNat := by
      unfold toU64
      rw [hmod]
    have hw1 : 2 ^ 63 ≤ (v + 2 ^ 64).toNat := by omega
    have hw2 : (v + 2 ^ 64).toNat < 2 ^ 64 := by omega
    have hz : ((toU64 v <<< 1) % 2 ^ 64) ^^^ (if v < 0 then 2 ^ 64 - 1 else 0) =
        2 ^ 65 - 1 - 2 * (v + 2 ^ 64).toNat := by
      rw [htu, if_pos hv, Nat.shiftLeft_eq, pow_one]
      have hm : (v + 2 ^ 64).toNat * 2 % 2 ^ 64 = 2 * (v + 2 ^ 64).toNat - 2 ^ 64 := by
        omega
      rw [hm, xor_all_ones (by omega)]
      omega
    rw [hz, hb1_decode_varint_enc (by omega)]
    show Except.ok (fromU64 ((2 ^ 65 - 1 - 2 * (v + 2 ^ 64).toNat) >>> 1 ^^^
      if (2 ^ 65 - 1 - 2 * (v + 2 ^ 64).toNat) &&& 1 = 1 then 2 ^ 64 - 1 else 0)) = Except.ok v
    have hodd : (2 ^ 65 - 1 - 2 * (v + 2 ^ 64).toNat) &&& 1 = 1 := by
      rw [and_one_eq_mod]
      omega
    rw [hodd, if_pos rfl, Nat.shiftRight_eq_div_pow, pow_one]
    have hdiv : (2 ^ 65 - 1 - 2 * (v + 2 ^ 64).toNat) / 2 = 2 ^ 64 - 1 - (v + 2 ^ 64).toNat := by
      omega
    have hweq : ((v + 2 ^ 64).toNat : Int) = v + 2 ^ 64 := Int.toNat_of_nonneg (by omega)
    rw [hdiv, xor_all_ones (by omega)]
    unfold fromU64
    rw [if_neg (by omega)]
    have hsimp : 2 ^ 64 - 1 - (2 ^ 64 - 1 - (v + 2 ^ 64).toNat) = (v + 2 ^ 64).toNat := by omega
    rw [hsimp, hweq]
    ring

-- ===================================================================
-- Writer/SpanSource helpers
-- ===================================================================

theorem encode_varint_u64_ne_nil (v : Nat) : encode_varint_u64 v ≠ [] :=
  encode_varint_go_ne_nil 10 v

theorem src_read_exact (l rest : List Nat) : src_read (l ++ rest) l.length = .ok (l, rest) := by
  unfold src_read
  rw [if_pos (by simp), List.take_left, List.drop_left]


-- ===================================================================
-- C3: HB1 encode/decode round trip
-- ===================================================================

/-- Claim C3 (code evaluated at a failing input): the claim promises
decode_message (D, encode_message (D, M)) = M for every M compatible
with D.  For the two-field descriptor D3w and the message M3w (field 1
holds 1, field 2 holds 2) — compatible with D3w and with both required
fields present — encoding yields the bytes [1, 0, 1, 2, 0, 2], but
decoding them returns both fields with value 2: each stored varint
view's span aliases the loop FieldView's scratch vector, which the scan
of the second field overwrites with the byte 2, so phase 2 decodes
every varint view from the last varint's bytes and the round trip
fails. -/
theorem c3_roundtrip_broken_by_scratch_aliasing :
    M3w.all (field_compat_b D3w) = true ∧
    required_present D3w M3w = true ∧
    encode_message D3w M3w = Except.ok [1, 0, 1, 2, 0, 2] ∧
    decode_message D3w [1, 0, 1, 2, 0, 2] =
      Except.ok [⟨1, 0, .unsignedV 2⟩, ⟨2, 0, .unsignedV 2⟩] ∧
    decode_message D3w [1, 0, 1, 2, 0, 2] ≠ Except.ok M3w := by
  refine ⟨by decide, by decide, by decide, by decide, by decide⟩

-- ===================================================================
-- C5: unknown fields and required-field enforcement
-- ===================================================================

/-- Claim C5 (code evaluated at a failing input): the claim promises
that unknown-id fields are skipped without changing the decoded result
and that absent required fields raise TransportError.  The error side
holds (an input carrying only the unknown field 9 fails with "missing
required field", id 9 never appears in any decoded result), but the
skipped field is scanned through the shared scratch vector the stored
spans alias: with input5w = field 1 (varint 17) followed by unknown
field 9 (varint 5), field 1 decodes as 5, whereas stripping the unknown
field (input5w2) decodes it as 17 — the unknown field does change the
decoded result. -/
theorem c5_unknown_field_clobbers_known_value :
    decode_message D5w input5w2 = Except.ok [⟨1, 0, .unsignedV 17⟩] ∧
    decode_message D5w input5w = Except.ok [⟨1, 0, .unsignedV 5⟩] ∧
    decode_message D5w input5w ≠ decode_message D5w input5w2 ∧
    decode_message D5w (write_field_varint 9 5) =
      Except.error ⟨.TransportError, "missing required field"⟩ := by
  refine ⟨by decide, by decide, by decide, by decide⟩
